import Mathlib

/-!
Power-rune detector: rotation vote, armor-point search, output snapshot;
then armor model selection, coordinate transforms and geometry helpers.

A shallow embedding of `modules/detector-rune/detector_rune.cpp`, followed by
the parts of `digital-twin/components/armor.h`, `math-tools/coordinate.h` and
`math-tools/algorithms.h` that the later sections are about.

Modelling conventions.

* `float`/`double` values are exact rationals (`ℚ`).  The only place where the
  IEEE special values matter for control flow is the aspect-ratio division by a
  zero height; it is modelled explicitly (`whRatio` returns `none` there).
  The one place where rounding is the subject, the accumulation of center R, has
  a second model in binary32 arithmetic (`Float32.round`, `foldCenterR32`).
* `cv::findContours`, `cv::minAreaRect` and `cv::contourArea` are library calls.
  A frame is represented by what they return: the list of contours, each given
  by its minimum-area rectangle and its contour area, and the hierarchy array
  (`Vec4i` per contour: next sibling, previous sibling, first child, parent).
* `RuneDetectorDebug::Instance()` (the tunable thresholds) is not part of the
  translated sources; its getters are the fields of `RuneDetectorDebug`.
* The float results of `cos`/`sin` used by `cv::RotatedRect::points` are the
  two functions of `LibM`.
* The `for (i = 0; i >= 0; i = hierarchy[i][0])` loops are run with fuel
  `hierarchy.size() + 1`; a walk over pairwise distinct indices never needs
  more.  `none` stands for an out-of-range read or a walk that does not end.
* `int` members are integers (`ℤ`); the vote count never exceeds the number
  of buffered samples in absolute value, far from the range of `int`.
* The function-local static vector of `FindRotateDirection` is an explicit
  argument and result.
* Logging and debug drawing have no effect on the state and are left out.
-/

/-- Plane point with float coordinates, `cv::Point2f`. -/
structure Point2f where
  x : ℚ
  y : ℚ
deriving DecidableEq, Repr

namespace Point2f

/-- The origin `cv::Point2f(0, 0)`. -/
def origin : Point2f := ⟨0, 0⟩

instance : Add Point2f := ⟨fun a b => ⟨a.x + b.x, a.y + b.y⟩⟩
instance : Sub Point2f := ⟨fun a b => ⟨a.x - b.x, a.y - b.y⟩⟩
instance : Neg Point2f := ⟨fun a => ⟨-a.x, -a.y⟩⟩

/-- Scaling `a * k` of `cv::Point_`. -/
def scale (a : Point2f) (k : ℚ) : Point2f := ⟨a.x * k, a.y * k⟩

/-- Division `a / k` of `cv::Point_` by a number. -/
def divBy (a : Point2f) (k : ℚ) : Point2f := ⟨a.x / k, a.y / k⟩

/-- The member `cv::Point_::dot`. -/
def dot (a b : Point2f) : ℚ := a.x * b.x + a.y * b.y

/-- The member `cv::Point_::cross`: `x * pt.y - y * pt.x`. -/
def cross (a b : Point2f) : ℚ := a.x * b.y - a.y * b.x

end Point2f

/-- Float size `cv::Size2f`. -/
structure Size2f where
  width : ℚ
  height : ℚ
deriving DecidableEq, Repr

/-- The member `cv::Size_::area`. -/
def Size2f.area (s : Size2f) : ℚ := s.width * s.height

/-- Integer rectangle `cv::Rect`. -/
structure Rect where
  x : Int
  y : Int
  width : Int
  height : Int
deriving DecidableEq, Repr

/-- The test `cv::Rect_::contains`, reached through `cv::Point_::inside`. -/
def Point2f.inside (pt : Point2f) (r : Rect) : Bool :=
  decide ((r.x : ℚ) ≤ pt.x) && decide (pt.x < ((r.x + r.width : Int) : ℚ)) &&
    decide ((r.y : ℚ) ≤ pt.y) && decide (pt.y < ((r.y + r.height : Int) : ℚ))

/-- The float values of `cos` and `sin` of an angle given in degrees, as used
by `cv::RotatedRect::points`. -/
structure LibM where
  cosDeg : ℚ → ℚ
  sinDeg : ℚ → ℚ

/-- Rotated rectangle `cv::RotatedRect`. -/
structure RotatedRect where
  center : Point2f
  size : Size2f
  angle : ℚ
deriving DecidableEq, Repr

namespace RotatedRect

/-- The four corners written by `cv::RotatedRect::points`. -/
def points (m : LibM) (r : RotatedRect) : Point2f × Point2f × Point2f × Point2f :=
  let b := m.cosDeg r.angle * (1 / 2)
  let a := m.sinDeg r.angle * (1 / 2)
  let p0 : Point2f := ⟨r.center.x - a * r.size.height - b * r.size.width,
                       r.center.y + b * r.size.height - a * r.size.width⟩
  let p1 : Point2f := ⟨r.center.x + a * r.size.height - b * r.size.width,
                       r.center.y - b * r.size.height - a * r.size.width⟩
  let p2 : Point2f := ⟨2 * r.center.x - p0.x, 2 * r.center.y - p0.y⟩
  let p3 : Point2f := ⟨2 * r.center.x - p1.x, 2 * r.center.y - p1.y⟩
  (p0, p1, p2, p3)

/-- The upright integer rectangle of `cv::RotatedRect::boundingRect`. -/
def boundingRect (m : LibM) (r : RotatedRect) : Rect :=
  let (p0, p1, p2, p3) := r.points m
  let x0 := Int.floor (min (min (min p0.x p1.x) p2.x) p3.x)
  let y0 := Int.floor (min (min (min p0.y p1.y) p2.y) p3.y)
  let x1 := Int.ceil (max (max (max p0.x p1.x) p2.x) p3.x)
  let y1 := Int.ceil (max (max (max p0.y p1.y) p2.y) p3.y)
  ⟨x0, y0, x1 - (x0 - 1), y1 - (y0 - 1)⟩

end RotatedRect

/-- The conversion `int(f)` of a float: truncation toward zero. -/
def truncInt (q : ℚ) : Int := if 0 ≤ q then Int.floor q else Int.ceil q

/-- The quotient `static_cast<double>(w) / static_cast<double>(h)`.  For
`h = 0` the IEEE result is a NaN or an infinity, represented by `none`. -/
def whRatio (w h : Int) : Option ℚ := if h = 0 then none else some ((w : ℚ) / (h : ℚ))

/-- The condition `ratio > lo && ratio < hi` on the quotient of `whRatio`.
With finite thresholds it is false for a NaN and for an infinity. -/
def ratioWithin (r : Option ℚ) (lo hi : ℚ) : Bool :=
  match r with
  | none => false
  | some q => decide (lo < q) && decide (q < hi)

/-- One contour of `fan_contours_`, given by the results of the two library
calls the detector makes on it. -/
structure Contour where
  minAreaRect : RotatedRect
  contourArea : ℚ
deriving DecidableEq, Repr

/-- One entry of `fan_hierarchies_` (`cv::Vec4i`): indices of the next and
previous contour of the same level, of the first child and of the parent;
negative when there is none. -/
structure Vec4i where
  next : Int
  prev : Int
  child : Int
  parent : Int
deriving DecidableEq, Repr

/-- What `cv::findContours` with `RETR_TREE` extracts from the binary image. -/
structure ContourTree where
  contours : List Contour
  hierarchy : List Vec4i
deriving DecidableEq, Repr

/-- The getters of `RuneDetectorDebug::Instance()`. -/
structure RuneDetectorDebug where
  MinRBoundingBoxArea : ℚ
  MaxRBoundingBoxArea : ℚ
  MaxEncircleRRectWHDeviation : ℚ
  MinBoundingBoxArea : ℚ
  MinBoundingBoxWHRatio : ℚ
  MaxBoundingBoxWHRatio : ℚ
  MinContourArea : ℚ
  MaxContourArea : ℚ
  MinArmorArea : ℚ
  MaxArmorArea : ℚ
  MinArmorWHRatio : ℚ
  MaxArmorWHRatio : ℚ
deriving DecidableEq, Repr

/-- The output snapshot returned by `RuneDetector::Run`. -/
structure PowerRune where
  color : Int
  clockwise : Int
  rtp_vec : Point2f
  rtg_vec : Point2f
  energy_center_r : Point2f
  armor_center_p : Point2f
  fan_center_g : Point2f
  send_yaw_pitch_delay : ℚ × ℚ × ℚ
deriving DecidableEq, Repr

/-- The data members of class `RuneDetector` that the detection code reads or
writes. -/
structure RuneDetector where
  color_ : Int
  found_energy_center_r : Bool
  found_armor_center_p : Bool
  found_fan_center_g : Bool
  clockwise_ : Int
  rtp_vec_ : Point2f
  rtg_vec_ : Point2f
  energy_center_r_ : Point2f
  armor_center_p_ : Point2f
  fan_center_g_ : Point2f
  send_yaw_pitch_delay_ : ℚ × ℚ × ℚ
  offset_center_r_ : Point2f
  fan_encircle_rect_ : RotatedRect
  armor_encircle_rect_ : RotatedRect
  fan_contours_ : List Contour
  fan_hierarchies_ : List Vec4i
deriving DecidableEq, Repr

namespace RuneDetector

/-- The constructor `RuneDetector::RuneDetector`: flags false, direction
undetermined, every point and vector at the origin.  Members without an
initialiser are default-constructed (zero rectangles, no contours); the
configured correction `offset_center_r_` is taken as an argument. -/
def new (color : Int) (offset : Point2f) : RuneDetector :=
  { color_ := color
    found_energy_center_r := false
    found_armor_center_p := false
    found_fan_center_g := false
    clockwise_ := 0
    rtp_vec_ := ⟨0, 0⟩
    rtg_vec_ := ⟨0, 0⟩
    energy_center_r_ := ⟨0, 0⟩
    armor_center_p_ := ⟨0, 0⟩
    fan_center_g_ := ⟨0, 0⟩
    send_yaw_pitch_delay_ := (0, 0, 0)
    offset_center_r_ := offset
    fan_encircle_rect_ := ⟨⟨0, 0⟩, ⟨0, 0⟩, 0⟩
    armor_encircle_rect_ := ⟨⟨0, 0⟩, ⟨0, 0⟩, 0⟩
    fan_contours_ := []
    fan_hierarchies_ := [] }

/-- The candidate test of the first loop of `FindCenterR`: rectangle area
strictly between the two R-area limits and `|width - height|` below the
deviation limit. -/
def isCenterRCandidate (p : RuneDetectorDebug) (r : RotatedRect) : Bool :=
  decide (r.size.area > p.MinRBoundingBoxArea) &&
    decide (r.size.area < p.MaxRBoundingBoxArea) &&
    decide (|r.size.width - r.size.height| < p.MaxEncircleRRectWHDeviation)

/-- The vector `possible_center_r` built by the first loop of `FindCenterR`. -/
def possibleCenterR (p : RuneDetectorDebug) (cs : List Contour) : List Point2f :=
  (cs.filter (fun c => isCenterRCandidate p c.minAreaRect)).map (fun c => c.minAreaRect.center)

/-- The square of `std::hypot` of the difference of two points.  The code
compares two `hypot` values; comparing their squares is the same test. -/
def sqDist (a b : Point2f) : ℚ := (a.x - b.x) * (a.x - b.x) + (a.y - b.y) * (a.y - b.y)

/-- The `direction_vec` of `FindCenterR`: the longer of the two sides of the
fan rectangle, oriented by the sign of its dot product with the vector from the
armor center to the fan-rectangle center. -/
def directionVec (m : LibM) (fan : RotatedRect) (armor_center_p : Point2f) : Point2f :=
  let (p0, p1, p2, _) := fan.points m
  let possible_ptr_vec := fan.center - armor_center_p
  let vec := if sqDist p0 p1 > sqDist p1 p2 then p0 - p1 else p1 - p2
  if possible_ptr_vec.dot vec > 0 then vec else -vec

/-- The rectangle `R_rect` of `FindCenterR`: bounding box of the fan rectangle
moved by three quarters of `direction_vec`, with its larger side halved after
truncation to `int`. -/
def searchRect (m : LibM) (fan : RotatedRect) (armor_center_p : Point2f) : Rect :=
  let direction_vec := directionVec m fan armor_center_p
  let new_center := fan.center + direction_vec.scale (3 / 4)
  let new_size : Size2f :=
    if fan.size.width > fan.size.height then
      ⟨((truncInt fan.size.width >>> 1 : Int) : ℚ), ((truncInt fan.size.height : Int) : ℚ)⟩
    else
      ⟨((truncInt fan.size.width : Int) : ℚ), ((truncInt fan.size.height >>> 1 : Int) : ℚ)⟩
  RotatedRect.boundingRect m ⟨new_center, new_size, fan.angle⟩

/-- The second loop of `FindCenterR`, over `possible_center_r`, carrying the
flag, the center R and the counter `i`. -/
def foldCenterR (R_rect : Rect) (offset : Point2f) :
    List Point2f → Bool × Point2f × Int → Bool × Point2f × Int
  | [], acc => acc
  | center_r :: rest, (found, r, i) =>
    if center_r.inside R_rect then
      foldCenterR R_rect offset rest
        (true, (center_r - offset).divBy i + ((r.scale ((i - 1 : Int) : ℚ)).divBy i), i + 1)
    else
      foldCenterR R_rect offset rest (found, r, i)

/-- The method `RuneDetector::FindCenterR`. -/
def FindCenterR (p : RuneDetectorDebug) (m : LibM) (d : RuneDetector) : Bool × RuneDetector :=
  let d := { d with found_energy_center_r := false }
  let possible_center_r := possibleCenterR p d.fan_contours_
  let R_rect := searchRect m d.fan_encircle_rect_ d.armor_center_p_
  if possible_center_r.isEmpty then
    (false, { d with energy_center_r_ := ⟨0, 0⟩ })
  else
    let (found, r, _) :=
      foldCenterR R_rect d.offset_center_r_ possible_center_r (false, d.energy_center_r_, 1)
    let d := { d with found_energy_center_r := found, energy_center_r_ := r }
    if found then (true, d) else (false, { d with energy_center_r_ := ⟨0, 0⟩ })

/-- The method `RuneDetector::FindFanCenterG`. -/
def FindFanCenterG (d : RuneDetector) : RuneDetector :=
  { d with
    fan_center_g_ := (d.armor_encircle_rect_.center.scale (1 / 4) +
        d.energy_center_r_.scale (1 / 4)) + d.fan_encircle_rect_.center.scale (1 / 2)
    found_fan_center_g := true }

/-- The three tests a top-level contour passes before its children are walked:
bounding-box area not below `MinBoundingBoxArea`, width/height ratio (after
truncation, smaller over larger) strictly inside the ratio limits, contour area
strictly inside the contour-area limits. -/
def fanPasses (p : RuneDetectorDebug) (c : Contour) : Bool :=
  let rect := c.minAreaRect
  if rect.size.area < p.MinBoundingBoxArea then false
  else
    let h := truncInt rect.size.height
    let w := truncInt rect.size.width
    let (w, h) := if w > h then (h, w) else (w, h)
    if !(ratioWithin (whRatio w h) p.MinBoundingBoxWHRatio p.MaxBoundingBoxWHRatio) then false
    else decide (c.contourArea > p.MinContourArea) && decide (c.contourArea < p.MaxContourArea)

/-- The four tests on a child contour: rectangle area strictly inside the
armor-area limits and width/height ratio strictly inside the armor-ratio
limits. -/
def armorPasses (p : RuneDetectorDebug) (rect : RotatedRect) : Bool :=
  let h := truncInt rect.size.height
  let w := truncInt rect.size.width
  let (w, h) := if w > h then (h, w) else (w, h)
  decide (rect.size.area > p.MinArmorArea) && decide (rect.size.area < p.MaxArmorArea) &&
    ratioWithin (whRatio w h) p.MinArmorWHRatio p.MaxArmorWHRatio

/-- The inner loop of `FindArmorCenterP`,
`for (next_son = ...; next_son >= 0; next_son = fan_hierarchies_[next_son][0])`. -/
def childLoop (p : RuneDetectorDebug) (cs : List Contour) (hs : List Vec4i) :
    Nat → Int → RuneDetector → Option RuneDetector
  | 0, _, _ => none
  | fuel + 1, next_son, d =>
    if next_son < 0 then some d
    else
      match cs[next_son.toNat]? with
      | none => none
      | some c =>
        let d := { d with armor_encircle_rect_ := c.minAreaRect }
        if armorPasses p c.minAreaRect then
          some { d with armor_center_p_ := c.minAreaRect.center, found_armor_center_p := true }
        else
          match hs[next_son.toNat]? with
          | none => none
          | some h => childLoop p cs hs fuel h.next d

/-- The outer loop of `FindArmorCenterP`,
`for (int i = 0; i >= 0; i = fan_hierarchies_[i][0])`. -/
def parentLoop (p : RuneDetectorDebug) (cs : List Contour) (hs : List Vec4i) :
    Nat → Int → RuneDetector → Option RuneDetector
  | 0, _, _ => none
  | fuel + 1, i, d =>
    if i < 0 then some d
    else
      match cs[i.toNat]?, hs[i.toNat]? with
      | some c, some h =>
        let d := { d with fan_encircle_rect_ := c.minAreaRect }
        if fanPasses p c then
          match childLoop p cs hs (hs.length + 1) h.child d with
          | none => none
          | some d =>
            if d.found_armor_center_p then some d
            else parentLoop p cs hs fuel h.next d
        else parentLoop p cs hs fuel h.next d
      | _, _ => none

/-- The last statements of `FindArmorCenterP`: all three centers back to the
origin. -/
def resetCenters (d : RuneDetector) : RuneDetector :=
  { d with fan_center_g_ := ⟨0, 0⟩, armor_center_p_ := ⟨0, 0⟩, energy_center_r_ := ⟨0, 0⟩ }

/-- The statements of `FindArmorCenterP` after the contour walk: the call of
`FindCenterR` guarded by `found_armor_center_p`, the vector R→P, the fan center
G with the vector R→G, and the final test of the three flags. -/
def afterWalk (p : RuneDetectorDebug) (m : LibM) (d : RuneDetector) : Bool × RuneDetector :=
  let d :=
    if d.found_armor_center_p then
      match FindCenterR p m d with
      | (true, d) => { d with rtp_vec_ := d.armor_center_p_ - d.energy_center_r_ }
      | (false, d) => d
    else d
  let d :=
    if d.found_energy_center_r then
      let d := FindFanCenterG d
      { d with rtg_vec_ := d.fan_center_g_ - d.energy_center_r_ }
    else d
  if d.found_armor_center_p && d.found_energy_center_r && d.found_fan_center_g then (true, d)
  else (false, resetCenters d)

/-- The first statements of `FindArmorCenterP`: `cv::findContours` fills
`fan_contours_` and `fan_hierarchies_`, and `found_energy_center_r` is
cleared. -/
def storeContours (t : ContourTree) (d : RuneDetector) : RuneDetector :=
  { d with fan_contours_ := t.contours, fan_hierarchies_ := t.hierarchy,
           found_energy_center_r := false }

/-- The method `RuneDetector::FindArmorCenterP` on the contour tree found in
the image. -/
def FindArmorCenterP (p : RuneDetectorDebug) (m : LibM) (t : ContourTree) (d : RuneDetector) :
    Option (Bool × RuneDetector) :=
  let d := storeContours t d
  if t.hierarchy.isEmpty then some (false, resetCenters d)
  else
    match parentLoop p t.contours t.hierarchy (t.hierarchy.length + 1) 0 d with
    | none => none
    | some d => some (afterWalk p m d)

/-- The vote cast by one buffered sample in `FindRotateDirection`: the sign of
its cross product with the first sample. -/
def vote (first_rotation current_rotation : Point2f) : Int :=
  let cross := first_rotation.cross current_rotation
  if cross > 0 then 1 else if cross < 0 then -1 else 0

/-- The range-for loop of `FindRotateDirection`, which counts the votes in the
member `clockwise_` itself. -/
def countVotes (first_rotation : Point2f) : List Point2f → Int → Int
  | [], clockwise => clockwise
  | current_rotation :: rest, clockwise =>
    countVotes first_rotation rest (clockwise + vote first_rotation current_rotation)

/-- The first statement of `FindRotateDirection`: the vector from R to P is
appended to the vote buffer when `FindArmorCenterP` reported success (`ok`)
and the direction of the detector `d` it left is undetermined. -/
def samplesAfterAppend (r_to_p_vec : List Point2f) (ok : Bool) (d : RuneDetector) :
    List Point2f :=
  if ok && decide (d.clockwise_ = 0) then
    r_to_p_vec ++ [d.armor_center_p_ - d.energy_center_r_]
  else r_to_p_vec

/-- The method `RuneDetector::FindRotateDirection`.  Its function-local static
vector `r_to_p_vec` is passed in and returned next to the detector. -/
def FindRotateDirection (p : RuneDetectorDebug) (m : LibM) (t : ContourTree)
    (r_to_p_vec : List Point2f) (d : RuneDetector) : Option (List Point2f × RuneDetector) :=
  match FindArmorCenterP p m t d with
  | none => none
  | some (ok, d) =>
    let r_to_p_vec := samplesAfterAppend r_to_p_vec ok d
    if d.clockwise_ = 0 ∧ (r_to_p_vec.length : Int) > 10 then
      match r_to_p_vec with
      | [] => some (r_to_p_vec, d)
      | first_rotation :: _ =>
        let clockwise := countVotes first_rotation r_to_p_vec d.clockwise_
        if clockwise > 7 then some (r_to_p_vec, { d with clockwise_ := 1 })
        else if clockwise < -7 then some (r_to_p_vec, { d with clockwise_ := -1 })
        else some ([], { d with clockwise_ := 0 })
    else some (r_to_p_vec, d)

/-- The return statement of `Run`: the `PowerRune` built from the members. -/
def snapshot (d : RuneDetector) : PowerRune :=
  { color := d.color_
    clockwise := d.clockwise_
    rtp_vec := d.rtp_vec_
    rtg_vec := d.rtg_vec_
    energy_center_r := d.energy_center_r_
    armor_center_p := d.armor_center_p_
    fan_center_g := d.fan_center_g_
    send_yaw_pitch_delay := d.send_yaw_pitch_delay_ }

/-- The method `RuneDetector::Run` on the contour tree of the preprocessed
frame, with the static vote buffer threaded through. -/
def Run (p : RuneDetectorDebug) (m : LibM) (t : ContourTree)
    (r_to_p_vec : List Point2f) (d : RuneDetector) :
    Option (PowerRune × List Point2f × RuneDetector) :=
  let r :=
    if d.clockwise_ = 0 then FindRotateDirection p m t r_to_p_vec d
    else (FindArmorCenterP p m t d).map (fun r => (r_to_p_vec, r.2))
  match r with
  | none => none
  | some (r_to_p_vec, d) => some (snapshot d, r_to_p_vec, d)

end RuneDetector

/-! ## Specification-side notions -/

/-- A link `k` read at contour `i` of `n` contours is absent (negative) or
points forward to an existing contour.  `cv::findContours` numbers the
contours in pre-order, so that both the next-sibling and the first-child link
of a contour point to a larger index. -/
def linkOK (n i : Nat) (k : Int) : Prop := k < 0 ∨ ((i : Int) < k ∧ k < (n : Int))

instance (n i : Nat) (k : Int) : Decidable (linkOK n i k) := by
  unfold linkOK; infer_instance

/-- A contour tree as `cv::findContours` builds it: one hierarchy entry per
contour, every next-sibling and first-child link absent or pointing forward. -/
def ContourTree.WellLinked (t : ContourTree) : Prop :=
  t.contours.length = t.hierarchy.length ∧
    ∀ i : Fin t.hierarchy.length,
      linkOK t.hierarchy.length i (t.hierarchy.get i).next ∧
        linkOK t.hierarchy.length i (t.hierarchy.get i).child

instance (t : ContourTree) : Decidable t.WellLinked := by
  unfold ContourTree.WellLinked; infer_instance

/-- The contours reached from contour `i` by next-sibling links, in order. -/
def siblings (hs : List Vec4i) : Nat → Int → List Nat
  | 0, _ => []
  | fuel + 1, i =>
    if i < 0 then []
    else
      i.toNat :: (match hs[i.toNat]? with
        | none => []
        | some h => siblings hs fuel h.next)

/-- The top-level contours in scan order: contour 0 and its siblings; none
when the hierarchy is empty. -/
def ContourTree.topLevel (t : ContourTree) : List Nat :=
  if t.hierarchy.isEmpty then [] else siblings t.hierarchy (t.hierarchy.length + 1) 0

/-- The children of contour `i` in scan order: its first child and that
child's siblings. -/
def ContourTree.childrenOf (t : ContourTree) (i : Nat) : List Nat :=
  match t.hierarchy[i]? with
  | none => []
  | some h => siblings t.hierarchy (t.hierarchy.length + 1) h.child

/-- Contour `i` passes the bounding-box area, bounding-box ratio and
contour-area tests. -/
def ContourTree.isFan (p : RuneDetectorDebug) (t : ContourTree) (i : Nat) : Bool :=
  match t.contours[i]? with
  | none => false
  | some c => RuneDetector.fanPasses p c

/-- Contour `j` passes the armor area and armor ratio tests. -/
def ContourTree.isArmor (p : RuneDetectorDebug) (t : ContourTree) (j : Nat) : Bool :=
  match t.contours[j]? with
  | none => false
  | some c => RuneDetector.armorPasses p c.minAreaRect

/-- No child of a fan-passing top-level contour passes the armor tests. -/
def ContourTree.NoArmorMatch (p : RuneDetectorDebug) (t : ContourTree) : Prop :=
  ∀ i ∈ t.topLevel, t.isFan p i = true → ∀ j ∈ t.childrenOf i, t.isArmor p j = false

instance (p : RuneDetectorDebug) (t : ContourTree) : Decidable (t.NoArmorMatch p) := by
  unfold ContourTree.NoArmorMatch; infer_instance

/-- The first child, in scan order, that passes the armor tests under a
top-level contour that passes the fan tests. -/
def ContourTree.firstMatch (p : RuneDetectorDebug) (t : ContourTree) : Option Nat :=
  (((t.topLevel.filter (fun i => t.isFan p i)).map (fun i => t.childrenOf i)).flatten).find?
    (fun j => t.isArmor p j)

/-- The net score of a vote round: the sum, over every buffered sample, of the
sign of its cross product with the first sample. -/
def netScore : List Point2f → Int
  | [] => 0
  | first :: rest =>
    ((first :: rest).map (fun s => ((SignType.sign (first.cross s) : SignType) : Int))).sum

namespace RuneDetector

/-- The members that the contour walk of `FindArmorCenterP` never writes. -/
def keptByWalk (d : RuneDetector) :=
  (d.color_, d.found_energy_center_r, d.found_fan_center_g, d.clockwise_, d.rtp_vec_, d.rtg_vec_,
    d.energy_center_r_, d.fan_center_g_, d.send_yaw_pitch_delay_, d.offset_center_r_,
    d.fan_contours_, d.fan_hierarchies_)

/-- The members that `FindCenterR` never writes. -/
def keptByCenterR (d : RuneDetector) :=
  (d.color_, d.found_armor_center_p, d.found_fan_center_g, d.clockwise_, d.rtp_vec_, d.rtg_vec_,
    d.armor_center_p_, d.fan_center_g_, d.send_yaw_pitch_delay_, d.offset_center_r_,
    d.fan_encircle_rect_, d.armor_encircle_rect_, d.fan_contours_, d.fan_hierarchies_)

/-- The detector left by `FindArmorCenterP` when all three points are found:
R from `FindCenterR`, then the vector R→P, the fan center G and the vector
R→G. -/
def afterWalkFound (p : RuneDetectorDebug) (m : LibM) (d : RuneDetector) : RuneDetector :=
  let d1 := (FindCenterR p m d).2
  let d2 := { d1 with rtp_vec_ := d1.armor_center_p_ - d1.energy_center_r_ }
  let d3 := FindFanCenterG d2
  { d3 with rtg_vec_ := d3.fan_center_g_ - d3.energy_center_r_ }

/-- A sequence of `Run` calls, one per frame, on the same detector and vote
buffer; the snapshots are collected in call order. -/
def RunAll (p : RuneDetectorDebug) (m : LibM) :
    List ContourTree → List Point2f → RuneDetector →
      Option (List PowerRune × List Point2f × RuneDetector)
  | [], r_to_p_vec, d => some ([], r_to_p_vec, d)
  | t :: ts, r_to_p_vec, d =>
    match Run p m t r_to_p_vec d with
    | none => none
    | some (out, r_to_p_vec, d) =>
      match RunAll p m ts r_to_p_vec d with
      | none => none
      | some (outs, r_to_p_vec, d) => some (out :: outs, r_to_p_vec, d)

end RuneDetector

/-! ## Sample data -/

namespace Sample

/-- A threshold set. -/
def thresholds : RuneDetectorDebug :=
  { MinRBoundingBoxArea := 50, MaxRBoundingBoxArea := 200, MaxEncircleRRectWHDeviation := 5,
    MinBoundingBoxArea := 1000, MinBoundingBoxWHRatio := 3 / 10, MaxBoundingBoxWHRatio := 7 / 10,
    MinContourArea := 500, MaxContourArea := 5000,
    MinArmorArea := 100, MaxArmorArea := 600, MinArmorWHRatio := 2 / 5, MaxArmorWHRatio := 9 / 10 }

/-- The values of `cos` and `sin` at angle 0; every sample rectangle is
upright. -/
def upright : LibM := ⟨fun _ => 1, fun _ => 0⟩

/-- A fan blade: 40 × 80 rectangle around (100, 100). -/
def fan : Contour := ⟨⟨⟨100, 100⟩, ⟨40, 80⟩, 0⟩, 2000⟩

/-- An armor plate inside the blade: 20 × 15 rectangle around (100, 70). -/
def armor : Contour := ⟨⟨⟨100, 70⟩, ⟨20, 15⟩, 0⟩, 250⟩

/-- The R mark below the blade: 10 × 10 rectangle around (100, 150). -/
def markR : Contour := ⟨⟨⟨100, 150⟩, ⟨10, 10⟩, 0⟩, 80⟩

/-- One blade with its armor plate, and the R mark. -/
def frameA : ContourTree :=
  ⟨[fan, armor, markR], [⟨2, -1, 1, -1⟩, ⟨-1, -1, -1, 0⟩, ⟨-1, 0, -1, -1⟩]⟩

/-- A second blade: 40 × 80 rectangle around (300, 100). -/
def fan2 : Contour := ⟨⟨⟨300, 100⟩, ⟨40, 80⟩, 0⟩, 2000⟩

/-- The armor plate of the second blade: 20 × 15 rectangle around (300, 70). -/
def armor2 : Contour := ⟨⟨⟨300, 70⟩, ⟨20, 15⟩, 0⟩, 250⟩

/-- A second R-sized mark, below the second blade. -/
def markR2 : Contour := ⟨⟨⟨300, 150⟩, ⟨10, 10⟩, 0⟩, 80⟩

/-- A bare blade without a plate (contour 0), then the second blade
(contour 1) with its armor plate (contour 2), then the two marks. -/
def frameB : ContourTree :=
  ⟨[fan, fan2, armor2, markR, markR2],
    [⟨1, -1, -1, -1⟩, ⟨3, 0, 2, -1⟩, ⟨-1, -1, -1, 1⟩, ⟨4, 1, -1, -1⟩, ⟨-1, 3, -1, -1⟩]⟩

/-- A blade-shaped contour that is too small: 20 × 40 rectangle (area 800,
ratio 1/2) with contour area 600. -/
def smallFan : Contour := ⟨⟨⟨100, 100⟩, ⟨20, 40⟩, 0⟩, 600⟩

/-- The too-small blade with an armor-sized child, and the R mark. -/
def frameC : ContourTree :=
  ⟨[smallFan, armor, markR], [⟨2, -1, 1, -1⟩, ⟨-1, -1, -1, 0⟩, ⟨-1, 0, -1, -1⟩]⟩

/-- The blade with a child that is no armor plate: the child's rectangle
area 100 is not above `MinArmorArea`. -/
def frameD : ContourTree :=
  ⟨[fan, markR], [⟨-1, -1, 1, -1⟩, ⟨-1, -1, -1, 0⟩]⟩

/-- A frame in which nothing was segmented. -/
def emptyFrame : ContourTree := ⟨[], []⟩

/-- A freshly constructed detector. -/
def fresh : RuneDetector := RuneDetector.new 0 ⟨0, 0⟩

/-- The detector after one `Run` on `frameA` from `fresh`: all three points
found. -/
def afterA : RuneDetector :=
  { color_ := 0
    found_energy_center_r := true
    found_armor_center_p := true
    found_fan_center_g := true
    clockwise_ := 0
    rtp_vec_ := ⟨0, -80⟩
    rtg_vec_ := ⟨0, -45⟩
    energy_center_r_ := ⟨100, 150⟩
    armor_center_p_ := ⟨100, 70⟩
    fan_center_g_ := ⟨100, 105⟩
    send_yaw_pitch_delay_ := (0, 0, 0)
    offset_center_r_ := ⟨0, 0⟩
    fan_encircle_rect_ := fan.minAreaRect
    armor_encircle_rect_ := armor.minAreaRect
    fan_contours_ := frameA.contours
    fan_hierarchies_ := frameA.hierarchy }

/-- The detector `afterA` once its direction is decided Clockwise. -/
def decidedA : RuneDetector := { afterA with clockwise_ := 1 }

/-- Ten vote samples turning steadily from (-80, 0) towards (0, -80). -/
def turning : List Point2f :=
  [⟨-80, 0⟩, ⟨-80, -1⟩, ⟨-80, -2⟩, ⟨-80, -3⟩, ⟨-80, -4⟩, ⟨-80, -5⟩, ⟨-80, -6⟩, ⟨-80, -7⟩,
    ⟨-80, -8⟩, ⟨-80, -9⟩]

/-- Eleven vote samples, evenly split: after the first one, five on its left
and five on its right. -/
def evenSplit : List Point2f :=
  [⟨1, 0⟩, ⟨0, 1⟩, ⟨0, -1⟩, ⟨0, 1⟩, ⟨0, -1⟩, ⟨0, 1⟩, ⟨0, -1⟩, ⟨0, 1⟩, ⟨0, -1⟩, ⟨0, 1⟩, ⟨0, -1⟩]

end Sample

/-! ## Center R: specification-side notions -/

namespace RuneDetector

/-- The candidates of `possible_center_r` that lie inside the bounding box of
the search rectangle, in contour-scan order. -/
def inWindow (p : RuneDetectorDebug) (m : LibM) (d : RuneDetector) : List Point2f :=
  (possibleCenterR p d.fan_contours_).filter
    (fun c => c.inside (searchRect m d.fan_encircle_rect_ d.armor_center_p_))

/-- The arithmetic mean of the points `c - offset` for `c` in `W`. -/
def meanMinusOffset (offset : Point2f) (W : List Point2f) : Point2f :=
  ⟨(W.map (fun c => c.x - offset.x)).sum / (W.length : ℚ),
    (W.map (fun c => c.y - offset.y)).sum / (W.length : ℚ)⟩

end RuneDetector

namespace Sample

/-- A third R-sized mark: 10 × 10 rectangle around (110, 160). -/
def markR3 : Contour := ⟨⟨⟨110, 160⟩, ⟨10, 10⟩, 0⟩, 80⟩

/-- The detector at the call of `FindCenterR` when the second blade and its
plate were chosen and the only R-sized mark is the one below the first
blade. -/
def farMark : RuneDetector :=
  { fresh with
    found_armor_center_p := true
    armor_center_p_ := ⟨300, 70⟩
    fan_encircle_rect_ := fan2.minAreaRect
    armor_encircle_rect_ := armor2.minAreaRect
    fan_contours_ := [fan2, armor2, markR] }

/-- The detector at the call of `FindCenterR` when the first blade and its
plate were chosen and two R-sized marks lie below the blade. -/
def twoMarks : RuneDetector :=
  { fresh with
    found_armor_center_p := true
    armor_center_p_ := ⟨100, 70⟩
    fan_encircle_rect_ := fan.minAreaRect
    armor_encircle_rect_ := armor.minAreaRect
    fan_contours_ := [fan, armor, markR, markR3] }

end Sample

namespace Sample

/-- A sliver: rectangle 1/2 × 4000 (area 2000) whose width truncates to 0. -/
def sliver : Contour := ⟨⟨⟨100, 100⟩, ⟨1 / 2, 4000⟩, 0⟩, 2000⟩

/-- The sliver with an armor-sized child. -/
def frameE : ContourTree :=
  ⟨[sliver, armor], [⟨-1, -1, 1, -1⟩, ⟨-1, -1, -1, 0⟩]⟩

end Sample

/-! ## Armor plates (`digital-twin/components/armor.h`)

The constructor of `Armor` passes one of two fixed lists of model points to
`cv::solvePnP`, a library call; the embedding keeps the choice of the list.
Decimal constants are exact rationals. -/

/-- Space point with double coordinates, `cv::Point3d`. -/
structure Point3d where
  x : ℚ
  y : ℚ
  z : ℚ
deriving DecidableEq, Repr

namespace Armor

/-- The static list `small_armor_pc` of the constructor. -/
def small_armor_pc : List Point3d :=
  [⟨-66 / 1000, 27 / 1000, 0⟩, ⟨-66 / 1000, -27 / 1000, 0⟩, ⟨66 / 1000, -27 / 1000, 0⟩,
    ⟨66 / 1000, 27 / 1000, 0⟩]

/-- The static list `big_armor_pc` of the constructor. -/
def big_armor_pc : List Point3d :=
  [⟨-115 / 1000, 29 / 1000, 0⟩, ⟨-115 / 1000, -29 / 1000, 0⟩, ⟨115 / 1000, -29 / 1000, 0⟩,
    ⟨115 / 1000, 29 / 1000, 0⟩]

/-- The condition `w / h > thr` on doubles.  For `h = 0` the quotient is
+∞ for positive `w`, a NaN for `w = 0` and -∞ for negative `w` (the zero being
the +0 that a difference of equal coordinates gives), so that the condition
holds exactly for positive `w`. -/
def ratioExceeds (w h thr : ℚ) : Bool :=
  if h = 0 then decide (0 < w) else decide (w / h > thr)

/-- The list of model points that the `switch (id_)` of the constructor passes
to `cv::solvePnP` for the plate id and the four image corners `corners_`;
`none` when no case matches and `cv::solvePnP` is not called. -/
def modelPoints (id_ : Nat) (corners_ : Fin 4 → Point2f) : Option (List Point3d) :=
  match id_ with
  | 0 | 1 | 6 => some big_armor_pc
  | 2 => some small_armor_pc
  | 3 | 4 | 5 =>
    let armor_height_pixel :=
      max ((corners_ 0).y - (corners_ 3).y) ((corners_ 1).y - (corners_ 2).y)
    let armor_width_pixel :=
      max ((corners_ 0).x - (corners_ 1).x) ((corners_ 1).x - (corners_ 2).x)
    if ratioExceeds armor_width_pixel armor_height_pixel (13 / 10) then some big_armor_pc
    else some small_armor_pc
  | _ => none

/-- The image corners of an axis-aligned rectangle with left edge at `x = l`,
width `w`, and its two horizontal edges at `y = a` and `y = b`, in the order of
the model points: corners 0 and 1 on the left edge, corners 2 and 3 on the
right edge, corners 0 and 3 on the edge at `y = a`. -/
def axisAligned (l w a b : ℚ) : Fin 4 → Point2f :=
  ![⟨l, a⟩, ⟨l, b⟩, ⟨l + w, b⟩, ⟨l + w, a⟩]

end Armor

/-! ## Coordinate transforms (`math-tools/coordinate.h`) and geometry helpers
(`math-tools/algorithms.h`)

The functions are written over a field `K` of exact numbers.  The functions of
`<cmath>` are the fields of `CMath`; the theorems about real angles take them
to be the real functions. -/

/-- The functions of `<cmath>` and the constant `CV_PI`. -/
structure CMath (K : Type) where
  sin : K → K
  cos : K → K
  asin : K → K
  acos : K → K
  atan2 : K → K → K
  sqrt : K → K
  pi : K

/-- Plane point `cv::Point_<_Tp>`. -/
structure Point_ (T : Type) where
  x : T
  y : T

/-- The member `cv::Point_::dot`. -/
def Point_.dot {T : Type} [Add T] [Mul T] (a b : Point_ T) : T := a.x * b.x + a.y * b.y

namespace coordinate

/-- The quaternion `Eigen::Quaternionf`, by its coefficients. -/
structure Quaternion (K : Type) where
  w : K
  x : K
  y : K
  z : K

namespace transform

/-- The function `coordinate::transform::QuaternionToRotationMatrix`. -/
def QuaternionToRotationMatrix {K : Type} [Field K] (lib : CMath K) (quaternion : Quaternion K) :
    Matrix (Fin 3) (Fin 3) K :=
  let e_yaw := lib.atan2 (2 * (quaternion.w * quaternion.z + quaternion.x * quaternion.y))
    (2 * (quaternion.w * quaternion.w + quaternion.x * quaternion.x) - 1)
  let e_roll := lib.asin (-2 * (quaternion.x * quaternion.z - quaternion.w * quaternion.y))
  let e_pitch := lib.atan2 (2 * (quaternion.w * quaternion.x + quaternion.y * quaternion.z))
    (2 * (quaternion.w * quaternion.w + quaternion.z * quaternion.z) - 1)
  let r_yaw : Matrix (Fin 3) (Fin 3) K :=
    !![lib.cos e_yaw, 0, lib.sin e_yaw;
       0, 1, 0;
       -lib.sin e_yaw, 0, lib.cos e_yaw]
  let r_roll : Matrix (Fin 3) (Fin 3) K :=
    !![lib.cos e_roll, -lib.sin e_roll, 0;
       lib.sin e_roll, lib.cos e_roll, 0;
       0, 0, 1]
  let r_pitch : Matrix (Fin 3) (Fin 3) K :=
    !![1, 0, 0;
       0, lib.cos e_pitch, -lib.sin e_pitch;
       0, lib.sin e_pitch, lib.cos e_pitch]
  r_yaw * r_pitch * r_roll

/-- The function `coordinate::transform::CameraToWorld`. -/
def CameraToWorld {K : Type} [Field K] (tv_cam : Fin 3 → K) (rm_imu : Matrix (Fin 3) (Fin 3) K)
    (tm_cam_to_imu : Fin 3 → K) (rm_cam_to_imu : Matrix (Fin 3) (Fin 3) K) : Fin 3 → K :=
  (rm_cam_to_imu * rm_imu).transpose.mulVec (tv_cam + tm_cam_to_imu)

/-- The function `coordinate::transform::WorldToCamera`. -/
def WorldToCamera {K : Type} [Field K] (tv_world : Fin 3 → K)
    (rm_imu_to_world : Matrix (Fin 3) (Fin 3) K) (tm_cam_to_imu : Fin 3 → K)
    (rm_cam_to_imu : Matrix (Fin 3) (Fin 3) K) : Fin 3 → K :=
  (rm_cam_to_imu * rm_imu_to_world).mulVec tv_world - tm_cam_to_imu

end transform

end coordinate

namespace algorithm

end algorithm

namespace Sample

/-- A quarter turn about the third axis, as an orientation matrix. -/
def quarterTurn : Matrix (Fin 3) (Fin 3) ℚ :=
  !![0, -1, 0;
     1, 0, 0;
     0, 0, 1]

/-- The camera-to-IMU offset `tm_cam_to_imu_data` of the `Armor` constructor. -/
def camOffset : Fin 3 → ℚ := ![0, -26 / 1000, 75 / 1000]

end Sample

namespace algorithm

end algorithm

/-! ## Two detector instances in one process -/

namespace TwoDetectors

end TwoDetectors

namespace coordinate

namespace transform

/-- The Euler angle `e_yaw` of `QuaternionToRotationMatrix`. -/
def e_yaw {K : Type} [Field K] (lib : CMath K) (quaternion : Quaternion K) : K :=
  lib.atan2 (2 * (quaternion.w * quaternion.z + quaternion.x * quaternion.y))
    (2 * (quaternion.w * quaternion.w + quaternion.x * quaternion.x) - 1)

/-- The Euler angle `e_roll` of `QuaternionToRotationMatrix`. -/
def e_roll {K : Type} [Field K] (lib : CMath K) (quaternion : Quaternion K) : K :=
  lib.asin (-2 * (quaternion.x * quaternion.z - quaternion.w * quaternion.y))

/-- The Euler angle `e_pitch` of `QuaternionToRotationMatrix`. -/
def e_pitch {K : Type} [Field K] (lib : CMath K) (quaternion : Quaternion K) : K :=
  lib.atan2 (2 * (quaternion.w * quaternion.x + quaternion.y * quaternion.z))
    (2 * (quaternion.w * quaternion.w + quaternion.z * quaternion.z) - 1)

end transform

namespace convert

/-- The function template `coordinate::convert::Rectangular2Spherical<T>` on
arrays of three numbers; the output array is the result. -/
def Rectangular2SphericalT {K : Type} [Field K] (lib : CMath K) (rectangular : Fin 3 → K) :
    Fin 3 → K :=
  ![lib.atan2 (rectangular 0) (rectangular 2),
    lib.atan2 (rectangular 1)
      (lib.sqrt (rectangular 0 * rectangular 0 + rectangular 2 * rectangular 2)),
    lib.sqrt (rectangular 0 * rectangular 0 + rectangular 1 * rectangular 1 +
      rectangular 2 * rectangular 2)]

/-- The function `coordinate::convert::Rectangular2Spherical` on an
`Eigen::Vector3d`. -/
def Rectangular2Spherical {K : Type} [Field K] (lib : CMath K) (rectangular : Fin 3 → K) :
    Fin 3 → K :=
  let spherical0 := lib.atan2 (rectangular 0) (rectangular 2)
  let spherical1 := lib.atan2 (rectangular 1)
    (lib.sqrt (rectangular 0 * rectangular 0 + rectangular 2 * rectangular 2))
  let spherical2 := lib.sqrt (rectangular 0 * rectangular 0 + rectangular 1 * rectangular 1 +
    rectangular 2 * rectangular 2)
  ![spherical0, spherical1, spherical2]

end convert

end coordinate

/-! ## Single-precision arithmetic of `cv::Point2f` -/

namespace Float32

/-- The power `2 ^ e` for an integer exponent. -/
def pow2 (e : Int) : ℚ :=
  if 0 ≤ e then ((2 ^ e.toNat : Nat) : ℚ) else 1 / ((2 ^ (-e).toNat : Nat) : ℚ)

/-- The number of halvings that take `n` below 2, which for `n ≥ 1` is the
`k` with `2 ^ k ≤ n < 2 ^ (k + 1)`; at most `fuel` halvings are counted. -/
def log2Floor : Nat → Nat → Nat
  | 0, _ => 0
  | fuel + 1, n => if n < 2 then 0 else log2Floor fuel (n / 2) + 1

/-- The binary exponent of a nonzero value: the `e` with
`2 ^ e ≤ |q| < 2 ^ (e + 1)`. -/
def exponent (q : ℚ) : Int :=
  let e := (log2Floor q.num.natAbs q.num.natAbs : Int) - (log2Floor q.den q.den : Int)
  if pow2 e ≤ |q| then e else e - 1

/-- Rounding to the nearest integer, a tie going to the even one. -/
def roundTiesEven (q : ℚ) : Int :=
  let f := Rat.floor q
  let r := q - (f : ℚ)
  if r < 1 / 2 then f
  else if 1 / 2 < r then f + 1
  else if f % 2 = 0 then f else f + 1

/-- The value of IEEE 754 binary32 nearest to `q` (24 significant bits, least
exponent -126, ties to even), which is what one `float` operation stores of its
exact result `q`.  Results beyond the largest finite `float` are not
modelled. -/
def round (q : ℚ) : ℚ :=
  if q = 0 then 0
  else
    let e := max (exponent q) (-126)
    (roundTiesEven (q / pow2 (e - 23)) : ℚ) * pow2 (e - 23)

/-- The operator `a - b` of `cv::Point_<float>`. -/
def sub (a b : Point2f) : Point2f := ⟨round (a.x - b.x), round (a.y - b.y)⟩

/-- The operator `a + b` of `cv::Point_<float>`. -/
def add (a b : Point2f) : Point2f := ⟨round (a.x + b.x), round (a.y + b.y)⟩

/-- The operator `a * b` of `cv::Point_<float>` with an `int`. -/
def mul (a : Point2f) (b : Int) : Point2f := ⟨round (a.x * (b : ℚ)), round (a.y * (b : ℚ))⟩

/-- The operator `a / b` of `cv::Point_<float>` with an `int`. -/
def div (a : Point2f) (b : Int) : Point2f := ⟨round (a.x / (b : ℚ)), round (a.y / (b : ℚ))⟩

end Float32

namespace RuneDetector

/-- The second loop of `FindCenterR` in the arithmetic of `cv::Point2f`: each
of the five operators of
`(center_r - offset_center_r_) / i + energy_center_r_ * (i - 1) / i` stores a
`float`. -/
def foldCenterR32 (R_rect : Rect) (offset : Point2f) :
    List Point2f → Bool × Point2f × Int → Bool × Point2f × Int
  | [], acc => acc
  | center_r :: rest, (found, r, i) =>
    if center_r.inside R_rect then
      foldCenterR32 R_rect offset rest
        (true, Float32.add (Float32.div (Float32.sub center_r offset) i)
          (Float32.div (Float32.mul r (i - 1)) i), i + 1)
    else
      foldCenterR32 R_rect offset rest (found, r, i)

end RuneDetector

namespace Sample

/-- Three R-sized marks, 8 × 8 rectangles around (101, 145), (102, 160) and
(104, 175). -/
def markS1 : Contour := ⟨⟨⟨101, 145⟩, ⟨8, 8⟩, 0⟩, 50⟩

/-- The second of the three marks. -/
def markS2 : Contour := ⟨⟨⟨102, 160⟩, ⟨8, 8⟩, 0⟩, 50⟩

/-- The third of the three marks. -/
def markS3 : Contour := ⟨⟨⟨104, 175⟩, ⟨8, 8⟩, 0⟩, 50⟩

/-- The detector at the call of `FindCenterR` when the first blade and its
plate were chosen and the three marks lie below the blade. -/
def threeMarks : RuneDetector :=
  { fresh with
    found_armor_center_p := true
    armor_center_p_ := ⟨100, 70⟩
    fan_encircle_rect_ := fan.minAreaRect
    armor_encircle_rect_ := armor.minAreaRect
    fan_contours_ := [fan, armor, markS1, markS2, markS3] }

/-- The same detector with the last two marks found in the other order. -/
def threeMarksSwapped : RuneDetector :=
  { threeMarks with fan_contours_ := [fan, armor, markS1, markS3, markS2] }

end Sample

/-! ## Auxiliary facts about the methods -/

namespace RuneDetector

theorem childLoop_kept (p : RuneDetectorDebug) (cs : List Contour) (hs : List Vec4i) :
    ∀ (fuel : Nat) (j : Int) (d d' : RuneDetector),
      childLoop p cs hs fuel j d = some d' → keptByWalk d' = keptByWalk d := by
  intro fuel
  induction fuel with
  | zero => intro j d d' h; simp [childLoop] at h
  | succ n ih =>
    intro j d d' h
    unfold childLoop at h
    split at h
    · cases h; rfl
    · split at h
      · cases h
      · split at h
        · cases h; rfl
        · split at h
          · cases h
          · exact (ih _ _ _ h).trans rfl

theorem parentLoop_kept (p : RuneDetectorDebug) (cs : List Contour) (hs : List Vec4i) :
    ∀ (fuel : Nat) (i : Int) (d d' : RuneDetector),
      parentLoop p cs hs fuel i d = some d' → keptByWalk d' = keptByWalk d := by
  intro fuel
  induction fuel with
  | zero => intro j d d' h; simp [parentLoop] at h
  | succ n ih =>
    intro i d d' h
    unfold parentLoop at h
    split at h
    · cases h; rfl
    · split at h
      · split at h
        · dsimp only at h
          split at h
          · cases h
          · rename_i d2 hd2
            have h2 := childLoop_kept p cs hs _ _ _ _ hd2
            split at h
            · cases h; exact h2.trans rfl
            · exact (ih _ _ _ h).trans (h2.trans rfl)
        · exact (ih _ _ _ h).trans rfl
      · cases h

theorem FindCenterR_kept (p : RuneDetectorDebug) (m : LibM) (d : RuneDetector) :
    keptByCenterR (FindCenterR p m d).2 = keptByCenterR d := by
  unfold FindCenterR
  dsimp only
  split
  · rfl
  · split <;> rfl

theorem FindCenterR_flag (p : RuneDetectorDebug) (m : LibM) (d : RuneDetector) :
    (FindCenterR p m d).2.found_energy_center_r = (FindCenterR p m d).1 := by
  unfold FindCenterR
  dsimp only
  split
  · rfl
  · split
    · rename_i h; simp [h]
    · rename_i h; simp at h; simp [h]

theorem afterWalk_cases (p : RuneDetectorDebug) (m : LibM) (d : RuneDetector)
    (hr : d.found_energy_center_r = false) :
    (d.found_armor_center_p = false ∧ afterWalk p m d = (false, resetCenters d)) ∨
    (d.found_armor_center_p = true ∧ (FindCenterR p m d).1 = false ∧
      afterWalk p m d = (false, resetCenters (FindCenterR p m d).2)) ∨
    (d.found_armor_center_p = true ∧ (FindCenterR p m d).1 = true ∧
      afterWalk p m d = (true, afterWalkFound p m d)) := by
  cases hp : d.found_armor_center_p
  · left
    refine ⟨rfl, ?_⟩
    simp [afterWalk, hp, hr]
  · right
    have hflag := FindCenterR_flag p m d
    have hkept := FindCenterR_kept p m d
    rcases hR : FindCenterR p m d with ⟨b, d1⟩
    rw [hR] at hflag hkept
    simp only at hflag hkept
    have hp1 : d1.found_armor_center_p = true := by
      have := congrArg (fun x => x.2.1) hkept
      simpa [keptByCenterR, hp] using this
    cases b
    · left
      refine ⟨rfl, rfl, ?_⟩
      simp [afterWalk, hp, hR, hflag]
    · right
      refine ⟨rfl, rfl, ?_⟩
      simp [afterWalk, hp, hR, hflag, hp1, afterWalkFound, FindFanCenterG]

end RuneDetector

namespace RuneDetector

theorem childLoop_isSome (p : RuneDetectorDebug) (cs : List Contour) (hs : List Vec4i)
    (hlen : cs.length = hs.length)
    (hlink : ∀ i : Fin hs.length, linkOK hs.length i (hs.get i).next) :
    ∀ (fuel : Nat) (j : Int) (d : RuneDetector),
      ((j < 0 ∧ 0 < fuel) ∨ (0 ≤ j ∧ j < hs.length ∧ hs.length - j.toNat < fuel)) →
        ∃ d', childLoop p cs hs fuel j d = some d' := by
  intro fuel
  induction fuel with
  | zero => intro j d h; omega
  | succ n ih =>
    intro j d h
    unfold childLoop
    by_cases hj : j < 0
    · exact ⟨d, by simp [hj]⟩
    · rw [if_neg hj]
      have hjn : j.toNat < hs.length := by omega
      have hjc : j.toNat < cs.length := by omega
      have hc : cs[j.toNat]? = some cs[j.toNat] := List.getElem?_eq_getElem _
      have hh : hs[j.toNat]? = some hs[j.toNat] := List.getElem?_eq_getElem _
      rw [hc]
      dsimp only
      by_cases ha : armorPasses p cs[j.toNat].minAreaRect = true
      · rw [if_pos ha]
        exact ⟨_, rfl⟩
      · rw [if_neg ha, hh]
        dsimp only
        apply ih
        have hl := hlink ⟨j.toNat, hjn⟩
        simp only [List.get_eq_getElem, linkOK] at hl
        omega

theorem parentLoop_isSome (p : RuneDetectorDebug) (cs : List Contour) (hs : List Vec4i)
    (hlen : cs.length = hs.length)
    (hlink : ∀ i : Fin hs.length, linkOK hs.length i (hs.get i).next ∧
      linkOK hs.length i (hs.get i).child) :
    ∀ (fuel : Nat) (i : Int) (d : RuneDetector),
      ((i < 0 ∧ 0 < fuel) ∨ (0 ≤ i ∧ i < hs.length ∧ hs.length - i.toNat < fuel)) →
        ∃ d', parentLoop p cs hs fuel i d = some d' := by
  intro fuel
  induction fuel with
  | zero => intro j d h; omega
  | succ n ih =>
    intro i d h
    unfold parentLoop
    by_cases hi : i < 0
    · exact ⟨d, by simp [hi]⟩
    · rw [if_neg hi]
      have hin : i.toNat < hs.length := by omega
      have hic : i.toNat < cs.length := by omega
      have hc : cs[i.toNat]? = some cs[i.toNat] := List.getElem?_eq_getElem _
      have hh : hs[i.toNat]? = some hs[i.toNat] := List.getElem?_eq_getElem _
      rw [hc, hh]
      dsimp only
      have hl := hlink ⟨i.toNat, hin⟩
      simp only [List.get_eq_getElem, linkOK] at hl
      have hnext : ∀ d2, ∃ d', parentLoop p cs hs n hs[i.toNat].next d2 = some d' := by
        intro d2
        apply ih
        omega
      by_cases hf : fanPasses p cs[i.toNat] = true
      · rw [if_pos hf]
        obtain ⟨d2, hd2⟩ := childLoop_isSome p cs hs hlen (fun k => (hlink k).1)
          (hs.length + 1) hs[i.toNat].child
          { d with fan_encircle_rect_ := cs[i.toNat].minAreaRect } (by omega)
        rw [hd2]
        dsimp only
        by_cases hfound : d2.found_armor_center_p = true
        · rw [if_pos hfound]
          exact ⟨_, rfl⟩
        · rw [if_neg hfound]
          exact hnext _
      · rw [if_neg hf]
        exact hnext _

/-- On a well-linked contour tree `FindArmorCenterP` returns. -/
theorem FindArmorCenterP_returns (p : RuneDetectorDebug) (m : LibM) (t : ContourTree)
    (d : RuneDetector) (hw : t.WellLinked) : ∃ r, FindArmorCenterP p m t d = some r := by
  unfold FindArmorCenterP
  dsimp only
  split
  · exact ⟨_, rfl⟩
  · rename_i hne
    have hpos : 0 < t.hierarchy.length := by
      cases hq : t.hierarchy with
      | nil => simp [hq] at hne
      | cons a l => simp
    obtain ⟨d2, hd2⟩ := parentLoop_isSome p t.contours t.hierarchy hw.1 hw.2
      (t.hierarchy.length + 1) 0 (storeContours t d) (by omega)
    rw [hd2]
    exact ⟨_, rfl⟩

end RuneDetector

namespace RuneDetector

theorem afterWalk_result (p : RuneDetectorDebug) (m : LibM) (d : RuneDetector)
    (hr : d.found_energy_center_r = false) :
    (afterWalk p m d).2.clockwise_ = d.clockwise_ ∧
    ((afterWalk p m d).1 = true →
      (afterWalk p m d).2.rtp_vec_ =
          (afterWalk p m d).2.armor_center_p_ - (afterWalk p m d).2.energy_center_r_ ∧
        (afterWalk p m d).2.rtg_vec_ =
          (afterWalk p m d).2.fan_center_g_ - (afterWalk p m d).2.energy_center_r_) ∧
    ((afterWalk p m d).1 = false →
      (afterWalk p m d).2.armor_center_p_ = ⟨0, 0⟩ ∧
        (afterWalk p m d).2.energy_center_r_ = ⟨0, 0⟩ ∧
        (afterWalk p m d).2.fan_center_g_ = ⟨0, 0⟩ ∧
        (afterWalk p m d).2.rtp_vec_ = d.rtp_vec_ ∧
        (afterWalk p m d).2.rtg_vec_ = d.rtg_vec_) := by
  have hkept := FindCenterR_kept p m d
  simp only [keptByCenterR, Prod.mk.injEq] at hkept
  obtain ⟨-, -, -, hcw, hrtp, hrtg, -⟩ := hkept
  rcases afterWalk_cases p m d hr with ⟨-, h⟩ | ⟨-, -, h⟩ | ⟨-, -, h⟩
  · rw [h]; simp [resetCenters]
  · rw [h]; simp [resetCenters, hcw, hrtp, hrtg]
  · rw [h]; simp [afterWalkFound, FindFanCenterG, hcw]

/-- The two ways `FindArmorCenterP` returns: at once on an empty hierarchy, or
through the contour walk followed by `afterWalk`. -/
theorem FindArmorCenterP_cases (p : RuneDetectorDebug) (m : LibM) (t : ContourTree)
    (d : RuneDetector) (r : Bool × RuneDetector) (h : FindArmorCenterP p m t d = some r) :
    (t.hierarchy = [] ∧ r = (false, resetCenters (storeContours t d))) ∨
    (t.hierarchy ≠ [] ∧ ∃ dw, parentLoop p t.contours t.hierarchy (t.hierarchy.length + 1) 0
        (storeContours t d) = some dw ∧
      dw.found_energy_center_r = false ∧ dw.clockwise_ = d.clockwise_ ∧
      dw.rtp_vec_ = d.rtp_vec_ ∧ dw.rtg_vec_ = d.rtg_vec_ ∧ r = afterWalk p m dw) := by
  unfold FindArmorCenterP at h
  dsimp only at h
  split at h
  · rename_i he
    left
    refine ⟨by simpa using he, ?_⟩
    cases h; rfl
  · rename_i he
    right
    refine ⟨by simpa using he, ?_⟩
    split at h
    · cases h
    · rename_i dw hdw
      have hk := parentLoop_kept p _ _ _ _ _ _ hdw
      simp only [keptByWalk, storeContours, Prod.mk.injEq] at hk
      obtain ⟨-, hfr, -, hcw, hrtp, hrtg, -⟩ := hk
      cases h
      exact ⟨dw, hdw, hfr, hcw, hrtp, hrtg, rfl⟩

/-- What `FindArmorCenterP` leaves behind: the direction is untouched; on
success both vectors are differences of the stored centers; on failure the
three centers are at the origin and both vectors keep their old value. -/
theorem FindArmorCenterP_result (p : RuneDetectorDebug) (m : LibM) (t : ContourTree)
    (d : RuneDetector) (ok : Bool) (d' : RuneDetector)
    (h : FindArmorCenterP p m t d = some (ok, d')) :
    d'.clockwise_ = d.clockwise_ ∧
    (ok = true → d'.rtp_vec_ = d'.armor_center_p_ - d'.energy_center_r_ ∧
      d'.rtg_vec_ = d'.fan_center_g_ - d'.energy_center_r_) ∧
    (ok = false → d'.armor_center_p_ = ⟨0, 0⟩ ∧ d'.energy_center_r_ = ⟨0, 0⟩ ∧
      d'.fan_center_g_ = ⟨0, 0⟩ ∧ d'.rtp_vec_ = d.rtp_vec_ ∧ d'.rtg_vec_ = d.rtg_vec_) := by
  rcases FindArmorCenterP_cases p m t d _ h with ⟨-, hr⟩ | ⟨-, dw, -, hfr, hcw, hrtp, hrtg, hr⟩
  · cases hr
    simp [resetCenters, storeContours]
  · have := afterWalk_result p m dw hfr
    rw [← hr] at this
    simpa [hcw, hrtp, hrtg] using this

end RuneDetector

namespace RuneDetector

theorem vote_eq_sign (first s : Point2f) :
    vote first s = ((SignType.sign (first.cross s) : SignType) : Int) := by
  unfold vote
  dsimp only
  rcases lt_trichotomy (first.cross s) 0 with h | h | h
  · rw [if_neg (not_lt.mpr h.le), if_pos h, sign_neg h]; rfl
  · rw [h]; simp
  · rw [if_pos h, sign_pos h]; rfl

theorem countVotes_eq (first : Point2f) :
    ∀ (l : List Point2f) (acc : Int),
      countVotes first l acc = acc + (l.map (vote first)).sum := by
  intro l
  induction l with
  | nil => intro acc; simp [countVotes]
  | cons s l ih => intro acc; simp [countVotes, ih, add_assoc]

/-- The vote count moves by at most one per sample. -/
theorem countVotes_bound (first : Point2f) :
    ∀ (l : List Point2f) (acc : Int), |countVotes first l acc - acc| ≤ (l.length : Int) := by
  intro l
  induction l with
  | nil => intro acc; simp [countVotes]
  | cons s l ih =>
    intro acc
    have hv : vote first s = 1 ∨ vote first s = -1 ∨ vote first s = 0 := by
      unfold vote
      dsimp only
      split
      · left; rfl
      · split
        · right; left; rfl
        · right; right; rfl
    have h := ih (acc + vote first s)
    rw [abs_le] at h ⊢
    simp only [countVotes, List.length_cons, Nat.cast_add, Nat.cast_one]
    omega

theorem countVotes_netScore (first : Point2f) (rest : List Point2f) :
    countVotes first (first :: rest) 0 = netScore (first :: rest) := by
  rw [countVotes_eq, netScore, zero_add]
  congr 1
  apply List.map_congr_left
  intro s _
  exact vote_eq_sign first s

/-- An evaluated round of `FindRotateDirection`: with the direction
undetermined and more than 10 samples after the append, the outcome is fixed by
the net score of the samples. -/
theorem FindRotateDirection_round (p : RuneDetectorDebug) (m : LibM) (t : ContourTree)
    (buf : List Point2f) (d : RuneDetector) (ok : Bool) (d1 : RuneDetector)
    (h0 : d.clockwise_ = 0) (hP : FindArmorCenterP p m t d = some (ok, d1))
    (hlen : 10 < (samplesAfterAppend buf ok d1).length) :
    FindRotateDirection p m t buf d = some (
      if 7 < netScore (samplesAfterAppend buf ok d1) then
        (samplesAfterAppend buf ok d1, { d1 with clockwise_ := 1 })
      else if netScore (samplesAfterAppend buf ok d1) < -7 then
        (samplesAfterAppend buf ok d1, { d1 with clockwise_ := -1 })
      else ([], { d1 with clockwise_ := 0 })) := by
  have hcw : d1.clockwise_ = 0 := (FindArmorCenterP_result p m t d ok d1 hP).1.trans h0
  unfold FindRotateDirection
  rw [hP]
  dsimp only
  generalize samplesAfterAppend buf ok d1 = samples at hlen
  have hl : (samples.length : Int) > 10 := by omega
  rw [if_pos ⟨hcw, hl⟩]
  cases samples with
  | nil => simp at hlen
  | cons first rest =>
    dsimp only
    rw [hcw, countVotes_netScore]
    split
    · rfl
    · split <;> rfl

end RuneDetector

namespace RuneDetector

/-- A call of `FindRotateDirection` that does not evaluate a round: with at
most 10 samples after the append, the detector is the one `FindArmorCenterP`
left and the buffer is the appended one. -/
theorem FindRotateDirection_idle (p : RuneDetectorDebug) (m : LibM) (t : ContourTree)
    (buf : List Point2f) (d : RuneDetector) (ok : Bool) (d1 : RuneDetector)
    (hP : FindArmorCenterP p m t d = some (ok, d1))
    (hlen : ¬ (d1.clockwise_ = 0 ∧ 10 < (samplesAfterAppend buf ok d1).length)) :
    FindRotateDirection p m t buf d = some (samplesAfterAppend buf ok d1, d1) := by
  unfold FindRotateDirection
  rw [hP]
  dsimp only
  rw [if_neg]
  intro h
  exact hlen ⟨h.1, by omega⟩

/-- The direction after `FindRotateDirection` is one of -1, 0, 1 whenever it
was undetermined before. -/
theorem FindRotateDirection_clockwise (p : RuneDetectorDebug) (m : LibM) (t : ContourTree)
    (buf : List Point2f) (d : RuneDetector) (h0 : d.clockwise_ = 0)
    (r : List Point2f × RuneDetector) (h : FindRotateDirection p m t buf d = some r) :
    r.2.clockwise_ = -1 ∨ r.2.clockwise_ = 0 ∨ r.2.clockwise_ = 1 := by
  cases hP : FindArmorCenterP p m t d with
  | none => simp [FindRotateDirection, hP] at h
  | some q =>
    obtain ⟨ok, d1⟩ := q
    have hcw : d1.clockwise_ = 0 := (FindArmorCenterP_result p m t d ok d1 hP).1.trans h0
    by_cases hlen : 10 < (samplesAfterAppend buf ok d1).length
    · rw [FindRotateDirection_round p m t buf d ok d1 h0 hP hlen] at h
      cases h
      split
      · right; right; rfl
      · split
        · left; rfl
        · right; left; rfl
    · rw [FindRotateDirection_idle p m t buf d ok d1 hP (fun h => hlen h.2)] at h
      cases h
      right; left; exact hcw

theorem FindRotateDirection_returns (p : RuneDetectorDebug) (m : LibM) (t : ContourTree)
    (buf : List Point2f) (d : RuneDetector) (hw : t.WellLinked) :
    ∃ r, FindRotateDirection p m t buf d = some r := by
  obtain ⟨⟨ok, d1⟩, hP⟩ := FindArmorCenterP_returns p m t d hw
  unfold FindRotateDirection
  rw [hP]
  dsimp only
  split
  · split
    · exact ⟨_, rfl⟩
    · split
      · exact ⟨_, rfl⟩
      · split <;> exact ⟨_, rfl⟩
  · exact ⟨_, rfl⟩

/-- On a well-linked contour tree `Run` returns a snapshot. -/
theorem Run_returns (p : RuneDetectorDebug) (m : LibM) (t : ContourTree)
    (buf : List Point2f) (d : RuneDetector) (hw : t.WellLinked) :
    ∃ r, Run p m t buf d = some r := by
  unfold Run
  dsimp only
  by_cases h0 : d.clockwise_ = 0
  · obtain ⟨⟨b, d1⟩, hr⟩ := FindRotateDirection_returns p m t buf d hw
    rw [if_pos h0, hr]
    exact ⟨_, rfl⟩
  · obtain ⟨⟨ok, d1⟩, hr⟩ := FindArmorCenterP_returns p m t d hw
    rw [if_neg h0, hr]
    exact ⟨_, rfl⟩

/-- The snapshot returned by `Run` copies the members of the detector it
leaves. -/
theorem Run_snapshot (p : RuneDetectorDebug) (m : LibM) (t : ContourTree)
    (buf : List Point2f) (d : RuneDetector) (out : PowerRune) (buf' : List Point2f)
    (d' : RuneDetector) (h : Run p m t buf d = some (out, buf', d')) :
    out = snapshot d' := by
  unfold Run at h
  dsimp only at h
  split at h
  · cases h
  · cases h
    rfl

/-- The two branches of `Run`. -/
theorem Run_cases (p : RuneDetectorDebug) (m : LibM) (t : ContourTree)
    (buf : List Point2f) (d : RuneDetector) (out : PowerRune) (buf' : List Point2f)
    (d' : RuneDetector) (h : Run p m t buf d = some (out, buf', d')) :
    (d.clockwise_ = 0 ∧ FindRotateDirection p m t buf d = some (buf', d')) ∨
    (d.clockwise_ ≠ 0 ∧ buf' = buf ∧ ∃ ok, FindArmorCenterP p m t d = some (ok, d')) := by
  unfold Run at h
  dsimp only at h
  by_cases h0 : d.clockwise_ = 0
  · left
    rw [if_pos h0] at h
    refine ⟨h0, ?_⟩
    split at h
    · cases h
    · rename_i heq
      cases h
      exact heq
  · right
    rw [if_neg h0] at h
    refine ⟨h0, ?_⟩
    cases hP : FindArmorCenterP p m t d with
    | none => simp [hP] at h
    | some q =>
      obtain ⟨ok, d1⟩ := q
      simp only [hP, Option.map_some'] at h
      cases h
      exact ⟨rfl, ok, rfl⟩

end RuneDetector

/-! ## Rotation-direction vote -/

namespace RuneDetector

theorem netScore_all_positive (first : Point2f) (rest : List Point2f)
    (hpos : ∀ s ∈ rest, 0 < first.cross s) : netScore (first :: rest) = rest.length := by
  have hself : first.cross first = 0 := by unfold Point2f.cross; ring
  have hrest : rest.map (fun s => ((SignType.sign (first.cross s) : SignType) : Int)) =
      rest.map (fun _ => (1 : Int)) := by
    apply List.map_congr_left
    intro s hs
    rw [sign_pos (hpos s hs)]
    rfl
  simp only [netScore, List.map_cons, List.sum_cons, hself, sign_zero, hrest]
  simp

theorem vote_rule_of_round (p : RuneDetectorDebug) (m : LibM) (t : ContourTree)
    (buf : List Point2f) (d : RuneDetector) (ok : Bool) (d1 : RuneDetector)
    (h0 : d.clockwise_ = 0) (hP : FindArmorCenterP p m t d = some (ok, d1))
    (hlen : 10 < (samplesAfterAppend buf ok d1).length) :
    ∃ buf' d', FindRotateDirection p m t buf d = some (buf', d') ∧
      (d'.clockwise_ = 1 ↔ 7 < netScore (samplesAfterAppend buf ok d1)) ∧
      (d'.clockwise_ = -1 ↔ netScore (samplesAfterAppend buf ok d1) < -7) ∧
      (d'.clockwise_ = 0 ↔ (-7 ≤ netScore (samplesAfterAppend buf ok d1) ∧
        netScore (samplesAfterAppend buf ok d1) ≤ 7)) ∧
      (∀ first rest, samplesAfterAppend buf ok d1 = first :: rest → rest.length = 10 →
        (∀ s ∈ rest, 0 < first.cross s) → d'.clockwise_ = 1) := by
  have hround := FindRotateDirection_round p m t buf d ok d1 h0 hP hlen
  have hpart : ∀ first rest, samplesAfterAppend buf ok d1 = first :: rest → rest.length = 10 →
      (∀ s ∈ rest, 0 < first.cross s) → 7 < netScore (samplesAfterAppend buf ok d1) := by
    intro first rest hs hl hpos
    rw [hs, netScore_all_positive first rest hpos, hl]
    decide
  by_cases h7 : 7 < netScore (samplesAfterAppend buf ok d1)
  · rw [if_pos h7] at hround
    refine ⟨_, _, hround, ?_, ?_, ?_, ?_⟩
    · simp [h7]
    · simp only [show ((1 : Int) = -1) = False from by simp, false_iff]; omega
    · simp only [show ((1 : Int) = 0) = False from by simp, false_iff]; omega
    · intros; rfl
  · rw [if_neg h7] at hround
    by_cases hm : netScore (samplesAfterAppend buf ok d1) < -7
    · rw [if_pos hm] at hround
      refine ⟨_, _, hround, ?_, ?_, ?_, ?_⟩
      · simp only [show ((-1 : Int) = 1) = False from by simp, false_iff]; exact h7
      · simp [hm]
      · simp only [show ((-1 : Int) = 0) = False from by simp, false_iff]; omega
      · intro first rest hs hl hpos
        exact absurd (hpart first rest hs hl hpos) h7
    · rw [if_neg hm] at hround
      refine ⟨_, _, hround, ?_, ?_, ?_, ?_⟩
      · simp only [show ((0 : Int) = 1) = False from by simp, false_iff]; exact h7
      · simp only [show ((0 : Int) = -1) = False from by simp, false_iff]; exact hm
      · simp only [true_iff]; omega
      · intro first rest hs hl hpos
        exact absurd (hpart first rest hs hl hpos) h7

/-- C1. Rotation vote rule: a call of `FindRotateDirection` with the direction
undetermined returns on a well-linked contour tree, and when the vote buffer
holds more than 10 samples after the append of the current frame it returns
with `clockwise_` equal to 1 exactly when the net score (sum of the signs of
the cross products of the first sample with every sample) exceeds 7, to -1
exactly when it is below -7, and to 0 otherwise.  In particular 11 samples
whose 10 later ones all have a positive cross product with the first give 1. -/
theorem FindRotateDirection_vote_rule (p : RuneDetectorDebug) (m : LibM) (t : ContourTree)
    (buf : List Point2f) (d : RuneDetector) (h0 : d.clockwise_ = 0) :
    (t.WellLinked → ∃ r, FindRotateDirection p m t buf d = some r) ∧
    ∀ ok d1, FindArmorCenterP p m t d = some (ok, d1) →
      10 < (samplesAfterAppend buf ok d1).length →
      ∃ buf' d', FindRotateDirection p m t buf d = some (buf', d') ∧
        (d'.clockwise_ = 1 ↔ 7 < netScore (samplesAfterAppend buf ok d1)) ∧
        (d'.clockwise_ = -1 ↔ netScore (samplesAfterAppend buf ok d1) < -7) ∧
        (d'.clockwise_ = 0 ↔ (-7 ≤ netScore (samplesAfterAppend buf ok d1) ∧
          netScore (samplesAfterAppend buf ok d1) ≤ 7)) ∧
        (∀ first rest, samplesAfterAppend buf ok d1 = first :: rest → rest.length = 10 →
          (∀ s ∈ rest, 0 < first.cross s) → d'.clockwise_ = 1) :=
  ⟨FindRotateDirection_returns p m t buf d,
    fun ok d1 hP hlen => vote_rule_of_round p m t buf d ok d1 h0 hP hlen⟩

/-- Witness for C1: ten turning samples in the buffer and one more from
`frameA` decide Clockwise. -/
theorem FindRotateDirection_vote_rule_witness :
    (∃ r, FindRotateDirection Sample.thresholds Sample.upright Sample.frameA Sample.turning
      Sample.fresh = some r) ∧
    (FindRotateDirection Sample.thresholds Sample.upright Sample.frameA Sample.turning
      Sample.fresh).map (fun r => r.2.clockwise_) = some 1 := by
  have hrule := FindRotateDirection_vote_rule Sample.thresholds Sample.upright Sample.frameA
    Sample.turning Sample.fresh (by decide!)
  refine ⟨hrule.1 (by decide), ?_⟩
  obtain ⟨buf', d', h, -, -, -, hpart⟩ := hrule.2 true Sample.afterA (by decide!) (by decide!)
  rw [h]
  exact congrArg some (hpart ⟨-80, 0⟩ (Sample.turning.tail ++ [⟨0, -80⟩]) (by decide!)
    (by decide!) (by decide!))

end RuneDetector

namespace RuneDetector

/-- C2. Inconclusive vote round: a call of `FindRotateDirection` with the
direction undetermined returns on a well-linked contour tree, and when the vote
buffer holds more than 10 samples after the append and their net score lies in
[-7, 7], it returns with `clockwise_ = 0` and an empty vote buffer. -/
theorem FindRotateDirection_inconclusive (p : RuneDetectorDebug) (m : LibM) (t : ContourTree)
    (buf : List Point2f) (d : RuneDetector) (h0 : d.clockwise_ = 0) :
    (t.WellLinked → ∃ r, FindRotateDirection p m t buf d = some r) ∧
    ∀ ok d1, FindArmorCenterP p m t d = some (ok, d1) →
      10 < (samplesAfterAppend buf ok d1).length →
      -7 ≤ netScore (samplesAfterAppend buf ok d1) →
      netScore (samplesAfterAppend buf ok d1) ≤ 7 →
      ∃ d', FindRotateDirection p m t buf d = some ([], d') ∧ d'.clockwise_ = 0 := by
  refine ⟨FindRotateDirection_returns p m t buf d, ?_⟩
  intro ok d1 hP hlen hlo hhi
  have hround := FindRotateDirection_round p m t buf d ok d1 h0 hP hlen
  rw [if_neg (by omega), if_neg (by omega)] at hround
  exact ⟨_, hround, rfl⟩

/-- Witness for C2: an evenly split buffer of eleven samples, on a frame in
which nothing is found, leaves the direction undetermined and the buffer
empty. -/
theorem FindRotateDirection_inconclusive_witness :
    (∃ r, FindRotateDirection Sample.thresholds Sample.upright Sample.emptyFrame
      Sample.evenSplit Sample.fresh = some r) ∧
    (FindRotateDirection Sample.thresholds Sample.upright Sample.emptyFrame Sample.evenSplit
      Sample.fresh).map (fun r => (r.1, r.2.clockwise_)) = some ([], 0) := by
  have hrule := FindRotateDirection_inconclusive Sample.thresholds Sample.upright
    Sample.emptyFrame Sample.evenSplit Sample.fresh (by decide!)
  refine ⟨hrule.1 (by decide), ?_⟩
  obtain ⟨d', h, hcw⟩ := hrule.2 false
    (resetCenters (storeContours Sample.emptyFrame Sample.fresh))
    (by decide!) (by decide!) (by decide!) (by decide!)
  rw [h]
  simp [hcw]

/-- Counterexample to C3: ten turning samples and one more from `frameA`
decide Clockwise, and the vote buffer still holds its eleven samples after the
call. -/
theorem FindRotateDirection_decided_keeps_buffer :
    (FindRotateDirection Sample.thresholds Sample.upright Sample.frameA Sample.turning
      Sample.fresh).map (fun r => (r.2.clockwise_, r.1)) =
      some (1, Sample.turning ++ [⟨0, -80⟩]) := by
  decide!

theorem buffer_after_round (p : RuneDetectorDebug) (m : LibM)
    (t : ContourTree) (buf : List Point2f) (d : RuneDetector) (ok : Bool) (d1 : RuneDetector)
    (h0 : d.clockwise_ = 0) (hP : FindArmorCenterP p m t d = some (ok, d1))
    (hlen : 10 < (samplesAfterAppend buf ok d1).length) :
    ∃ buf' d', FindRotateDirection p m t buf d = some (buf', d') ∧
      (buf' = [] ↔ (-7 ≤ netScore (samplesAfterAppend buf ok d1) ∧
        netScore (samplesAfterAppend buf ok d1) ≤ 7)) ∧
      (d'.clockwise_ = 0 → buf' = []) ∧
      (d'.clockwise_ ≠ 0 → buf' = samplesAfterAppend buf ok d1) := by
  have hround := FindRotateDirection_round p m t buf d ok d1 h0 hP hlen
  have hne : samplesAfterAppend buf ok d1 ≠ [] := by
    intro h
    rw [h] at hlen
    simp at hlen
  by_cases h7 : 7 < netScore (samplesAfterAppend buf ok d1)
  · rw [if_pos h7] at hround
    refine ⟨_, _, hround, ?_, ?_, ?_⟩
    · simp only [hne, false_iff]; omega
    · intro h; simp at h
    · intro _; rfl
  · rw [if_neg h7] at hround
    by_cases hm : netScore (samplesAfterAppend buf ok d1) < -7
    · rw [if_pos hm] at hround
      refine ⟨_, _, hround, ?_, ?_, ?_⟩
      · simp only [hne, false_iff]; omega
      · intro h; simp at h
      · intro _; rfl
    · rw [if_neg hm] at hround
      refine ⟨_, _, hround, ?_, ?_, ?_⟩
      · simp only [true_iff]; omega
      · intro _; rfl
      · intro h; simp at h

/-- C3, amended. A call of `FindRotateDirection` with the direction
undetermined returns on a well-linked contour tree; a round that it evaluates
(more than 10 samples after the append) empties the vote buffer exactly when it
is inconclusive (net score in [-7, 7]), and a round that decides Clockwise or
CounterClockwise leaves every sample in the buffer. -/
theorem FindRotateDirection_buffer_after_round (p : RuneDetectorDebug) (m : LibM)
    (t : ContourTree) (buf : List Point2f) (d : RuneDetector) (h0 : d.clockwise_ = 0) :
    (t.WellLinked → ∃ r, FindRotateDirection p m t buf d = some r) ∧
    ∀ ok d1, FindArmorCenterP p m t d = some (ok, d1) →
      10 < (samplesAfterAppend buf ok d1).length →
      ∃ buf' d', FindRotateDirection p m t buf d = some (buf', d') ∧
        (buf' = [] ↔ (-7 ≤ netScore (samplesAfterAppend buf ok d1) ∧
          netScore (samplesAfterAppend buf ok d1) ≤ 7)) ∧
        (d'.clockwise_ = 0 → buf' = []) ∧
        (d'.clockwise_ ≠ 0 → buf' = samplesAfterAppend buf ok d1) :=
  ⟨FindRotateDirection_returns p m t buf d,
    fun ok d1 hP hlen => buffer_after_round p m t buf d ok d1 h0 hP hlen⟩

/-- Witness for C3, amended: the decisive round on `frameA` does not empty the
vote buffer. -/
theorem FindRotateDirection_buffer_after_round_witness :
    (∃ r, FindRotateDirection Sample.thresholds Sample.upright Sample.frameA Sample.turning
      Sample.fresh = some r) ∧
    (FindRotateDirection Sample.thresholds Sample.upright Sample.frameA Sample.turning
      Sample.fresh).map (fun r => r.1.isEmpty) = some false := by
  have hrule := FindRotateDirection_buffer_after_round Sample.thresholds Sample.upright
    Sample.frameA Sample.turning Sample.fresh (by decide!)
  refine ⟨hrule.1 (by decide), ?_⟩
  obtain ⟨buf', d', h, hiff, -, -⟩ := hrule.2 true Sample.afterA (by decide!) (by decide!)
  have hne : buf' ≠ [] := fun hb => absurd (hiff.mp hb) (by decide!)
  rw [h]
  cases buf' with
  | nil => exact absurd rfl hne
  | cons a l => rfl

end RuneDetector

/-! ## The direction across `Run` calls -/

namespace RuneDetector

/-- One `Run` keeps the direction inside {-1, 0, 1}, and the snapshot carries
the direction of the detector. -/
theorem Run_clockwise (p : RuneDetectorDebug) (m : LibM) (t : ContourTree)
    (buf : List Point2f) (d : RuneDetector) (out : PowerRune) (buf' : List Point2f)
    (d' : RuneDetector) (h : Run p m t buf d = some (out, buf', d'))
    (hd : d.clockwise_ = -1 ∨ d.clockwise_ = 0 ∨ d.clockwise_ = 1) :
    (d'.clockwise_ = -1 ∨ d'.clockwise_ = 0 ∨ d'.clockwise_ = 1) ∧
      out.clockwise = d'.clockwise_ := by
  refine ⟨?_, ?_⟩
  · rcases Run_cases p m t buf d out buf' d' h with ⟨h0, hr⟩ | ⟨-, -, ok, hP⟩
    · exact FindRotateDirection_clockwise p m t buf d h0 _ hr
    · rw [(FindArmorCenterP_result p m t d ok d' hP).1]
      exact hd
  · rw [Run_snapshot p m t buf d out buf' d' h]
    rfl

theorem RunAll_clockwise (p : RuneDetectorDebug) (m : LibM) :
    ∀ (frames : List ContourTree) (buf : List Point2f) (d : RuneDetector)
      (outs : List PowerRune) (buf' : List Point2f) (d' : RuneDetector),
      RunAll p m frames buf d = some (outs, buf', d') →
      (d.clockwise_ = -1 ∨ d.clockwise_ = 0 ∨ d.clockwise_ = 1) →
      (d'.clockwise_ = -1 ∨ d'.clockwise_ = 0 ∨ d'.clockwise_ = 1) ∧
        ∀ out ∈ outs, out.clockwise = -1 ∨ out.clockwise = 0 ∨ out.clockwise = 1 := by
  intro frames
  induction frames with
  | nil =>
    intro buf d outs buf' d' h hd
    simp only [RunAll, Option.some.injEq, Prod.mk.injEq] at h
    obtain ⟨rfl, -, rfl⟩ := h
    exact ⟨hd, by simp⟩
  | cons t ts ih =>
    intro buf d outs buf' d' h hd
    unfold RunAll at h
    cases hR : Run p m t buf d with
    | none => simp [hR] at h
    | some r1 =>
      obtain ⟨out1, buf1, d1⟩ := r1
      rw [hR] at h
      dsimp only at h
      have h1 := Run_clockwise p m t buf d out1 buf1 d1 hR hd
      cases hA : RunAll p m ts buf1 d1 with
      | none => simp [hA] at h
      | some r2 =>
        obtain ⟨outs2, buf2, d2⟩ := r2
        rw [hA] at h
        simp only [Option.some.injEq, Prod.mk.injEq] at h
        obtain ⟨rfl, -, rfl⟩ := h
        have h2 := ih buf1 d1 outs2 buf2 d2 hA h1.1
        refine ⟨h2.1, ?_⟩
        intro out hout
        rcases List.mem_cons.mp hout with rfl | hmem
        · rw [h1.2]; exact h1.1
        · exact h2.2 out hmem

theorem RunAll_returns (p : RuneDetectorDebug) (m : LibM) :
    ∀ (frames : List ContourTree) (buf : List Point2f) (d : RuneDetector),
      (∀ t ∈ frames, t.WellLinked) → ∃ r, RunAll p m frames buf d = some r := by
  intro frames
  induction frames with
  | nil => intro buf d _; exact ⟨_, rfl⟩
  | cons t ts ih =>
    intro buf d hw
    obtain ⟨⟨out1, buf1, d1⟩, hR⟩ := Run_returns p m t buf d (hw t (List.mem_cons_self _ _))
    obtain ⟨⟨outs2, buf2, d2⟩, hA⟩ :=
      ih buf1 d1 (fun t' ht' => hw t' (List.mem_cons_of_mem _ ht'))
    unfold RunAll
    rw [hR]
    dsimp only
    rw [hA]
    exact ⟨_, rfl⟩

/-- C4. For every sequence of frames run on a detector whose direction starts
at 0 (as the constructor leaves it) and for every content of the vote buffer,
the sequence of `Run` calls returns when the contour trees are well linked,
and whenever it returns the `clockwise_` member of the detector and the
`clockwise` field of every returned snapshot is one of -1, 0, 1. -/
theorem RunAll_clockwise_range (p : RuneDetectorDebug) (m : LibM)
    (frames : List ContourTree) (buf : List Point2f) (d : RuneDetector)
    (h0 : d.clockwise_ = 0) :
    ((∀ t ∈ frames, t.WellLinked) → ∃ r, RunAll p m frames buf d = some r) ∧
    ∀ outs buf' d', RunAll p m frames buf d = some (outs, buf', d') →
      (d'.clockwise_ = -1 ∨ d'.clockwise_ = 0 ∨ d'.clockwise_ = 1) ∧
        ∀ out ∈ outs, out.clockwise = -1 ∨ out.clockwise = 0 ∨ out.clockwise = 1 :=
  ⟨RunAll_returns p m frames buf d,
    fun outs buf' d' h => RunAll_clockwise p m frames buf d outs buf' d' h (Or.inr (Or.inl h0))⟩

/-- Witness for C4: two frames on a fresh detector with ten turning samples
in the buffer; both snapshots carry a direction in {-1, 0, 1}. -/
theorem RunAll_clockwise_range_witness :
    (∃ r, RunAll Sample.thresholds Sample.upright [Sample.frameA, Sample.emptyFrame]
        Sample.turning Sample.fresh = some r) ∧
      ∀ out ∈ [snapshot Sample.decidedA,
          snapshot (resetCenters (storeContours Sample.emptyFrame Sample.decidedA))],
        out.clockwise = -1 ∨ out.clockwise = 0 ∨ out.clockwise = 1 :=
  ⟨(RunAll_clockwise_range Sample.thresholds Sample.upright [Sample.frameA, Sample.emptyFrame]
      Sample.turning Sample.fresh rfl).1 (by decide),
    ((RunAll_clockwise_range Sample.thresholds Sample.upright
      [Sample.frameA, Sample.emptyFrame] Sample.turning Sample.fresh rfl).2
      [snapshot Sample.decidedA,
        snapshot (resetCenters (storeContours Sample.emptyFrame Sample.decidedA))]
      (Sample.turning ++ [⟨0, -80⟩])
      (resetCenters (storeContours Sample.emptyFrame Sample.decidedA)) (by decide!)).2⟩

/-- C5. A decided direction is terminal: when `clockwise_` is 1 or -1 before
`Run`, the call is the `FindArmorCenterP` branch, it returns on a well-linked
contour tree, and whenever it returns the direction of the detector and of the
snapshot is the one before the call and the vote buffer is unchanged. -/
theorem Run_decided_terminal (p : RuneDetectorDebug) (m : LibM) (t : ContourTree)
    (buf : List Point2f) (d : RuneDetector) (hd : d.clockwise_ = 1 ∨ d.clockwise_ = -1) :
    Run p m t buf d = (FindArmorCenterP p m t d).map (fun r => (snapshot r.2, buf, r.2)) ∧
    (t.WellLinked → ∃ r, Run p m t buf d = some r) ∧
    ∀ out buf' d', Run p m t buf d = some (out, buf', d') →
      d'.clockwise_ = d.clockwise_ ∧ out.clockwise = d.clockwise_ ∧ buf' = buf := by
  have hne : d.clockwise_ ≠ 0 := by omega
  refine ⟨?_, Run_returns p m t buf d, ?_⟩
  · unfold Run
    dsimp only
    rw [if_neg hne]
    cases FindArmorCenterP p m t d <;> rfl
  · intro out buf' d' h
    rcases Run_cases p m t buf d out buf' d' h with ⟨h0, -⟩ | ⟨-, hb, ok, hP⟩
    · exact absurd h0 hne
    · have hcw := (FindArmorCenterP_result p m t d ok d' hP).1
      refine ⟨hcw, ?_, hb⟩
      rw [Run_snapshot p m t buf d out buf' d' h]
      exact hcw

/-- Witness for C5: a detector decided Clockwise, run on `frameA` with eleven
samples still in the buffer, stays Clockwise and leaves the buffer alone. -/
theorem Run_decided_terminal_witness :
    (Run Sample.thresholds Sample.upright Sample.frameA (Sample.turning ++ [⟨0, -80⟩])
      Sample.decidedA).map (fun r => (r.1.clockwise, r.2.1, r.2.2.clockwise_)) =
      some (1, Sample.turning ++ [⟨0, -80⟩], 1) := by
  obtain ⟨-, hret, hall⟩ :=
    Run_decided_terminal Sample.thresholds Sample.upright Sample.frameA
      (Sample.turning ++ [⟨0, -80⟩]) Sample.decidedA (Or.inl rfl)
  obtain ⟨⟨out, buf', d'⟩, hr⟩ := hret (by decide)
  obtain ⟨h1, h2, h3⟩ := hall out buf' d' hr
  rw [hr]
  simp only [Option.map_some', h1, h2, h3]
  rfl

end RuneDetector

/-! ## The armor-point search -/

namespace RuneDetector

/-- The inner loop against the scan order: it stops at the first sibling that
passes the armor tests and stores its rectangle center; without such a sibling
it leaves the flag and P alone. -/
theorem childLoop_find (p : RuneDetectorDebug) (t : ContourTree) :
    ∀ (fuel : Nat) (j : Int) (d d' : RuneDetector),
      childLoop p t.contours t.hierarchy fuel j d = some d' →
      ((siblings t.hierarchy fuel j).find? (fun k => t.isArmor p k) = none →
        d'.found_armor_center_p = d.found_armor_center_p ∧
          d'.armor_center_p_ = d.armor_center_p_) ∧
      (∀ k, (siblings t.hierarchy fuel j).find? (fun k => t.isArmor p k) = some k →
        d'.found_armor_center_p = true ∧
          ∃ c, t.contours[k]? = some c ∧ d'.armor_center_p_ = c.minAreaRect.center) := by
  intro fuel
  induction fuel with
  | zero => intro j d d' h; simp [childLoop] at h
  | succ n ih =>
    intro j d d' h
    unfold childLoop at h
    by_cases hj : j < 0
    · rw [if_pos hj] at h
      cases h
      simp [siblings, hj]
    · rw [if_neg hj] at h
      cases hc : t.contours[j.toNat]? with
      | none => simp [hc] at h
      | some c =>
        rw [hc] at h
        dsimp only at h
        have hsib : siblings t.hierarchy (n + 1) j = j.toNat ::
            (match t.hierarchy[j.toNat]? with
              | none => []
              | some h => siblings t.hierarchy n h.next) := by
          simp [siblings, hj]
        have hisA : t.isArmor p j.toNat = armorPasses p c.minAreaRect := by
          simp [ContourTree.isArmor, hc]
        by_cases ha : armorPasses p c.minAreaRect = true
        · rw [if_pos ha] at h
          cases h
          rw [hsib, List.find?_cons_of_pos _ (by rw [hisA]; exact ha)]
          refine ⟨fun hn => (by cases hn), ?_⟩
          intro k hk
          cases hk
          exact ⟨rfl, ⟨c, hc, rfl⟩⟩
        · rw [if_neg ha] at h
          cases hh : t.hierarchy[j.toNat]? with
          | none => simp [hh] at h
          | some hv =>
            rw [hh] at h
            dsimp only at h
            rw [hsib, List.find?_cons_of_neg _ (by rw [hisA]; exact ha), hh]
            exact ih hv.next { d with armor_encircle_rect_ := c.minAreaRect } d' h

/-- The outer loop against the scan order, started with the flag
`found_armor_center_p` clear: it stops at the first child passing the armor
tests under a top-level contour passing the fan tests, and stores that child's
rectangle center; without such a child it leaves the flag and P alone. -/
theorem parentLoop_firstMatch (p : RuneDetectorDebug) (t : ContourTree) :
    ∀ (fuel : Nat) (i : Int) (d dw : RuneDetector),
      d.found_armor_center_p = false →
      parentLoop p t.contours t.hierarchy fuel i d = some dw →
      (((((siblings t.hierarchy fuel i).filter (fun k => t.isFan p k)).map
          (fun k => t.childrenOf k)).flatten).find? (fun k => t.isArmor p k) = none →
        dw.found_armor_center_p = false ∧ dw.armor_center_p_ = d.armor_center_p_) ∧
      (∀ k, ((((siblings t.hierarchy fuel i).filter (fun k => t.isFan p k)).map
          (fun k => t.childrenOf k)).flatten).find? (fun k => t.isArmor p k) = some k →
        dw.found_armor_center_p = true ∧
          ∃ c, t.contours[k]? = some c ∧ dw.armor_center_p_ = c.minAreaRect.center) := by
  intro fuel
  induction fuel with
  | zero => intro i d dw _ h; simp [parentLoop] at h
  | succ n ih =>
    intro i d dw hfound h
    unfold parentLoop at h
    by_cases hi : i < 0
    · rw [if_pos hi] at h
      cases h
      simp [siblings, hi, hfound]
    · rw [if_neg hi] at h
      cases hc : t.contours[i.toNat]? with
      | none => simp [hc] at h
      | some c =>
        cases hh : t.hierarchy[i.toNat]? with
        | none => simp [hc, hh] at h
        | some hv =>
          rw [hc, hh] at h
          dsimp only at h
          have hsib : siblings t.hierarchy (n + 1) i =
              i.toNat :: siblings t.hierarchy n hv.next := by
            simp [siblings, hi, hh]
          have hisF : t.isFan p i.toNat = fanPasses p c := by
            simp [ContourTree.isFan, hc]
          have hch : t.childrenOf i.toNat =
              siblings t.hierarchy (t.hierarchy.length + 1) hv.child := by
            simp [ContourTree.childrenOf, hh]
          by_cases hf : fanPasses p c = true
          · rw [if_pos hf] at h
            rw [hsib, List.filter_cons_of_pos (by rw [hisF]; exact hf), List.map_cons,
              List.flatten_cons, List.find?_append, hch]
            cases hcl : childLoop p t.contours t.hierarchy (t.hierarchy.length + 1) hv.child
                { d with fan_encircle_rect_ := c.minAreaRect } with
            | none => simp [hcl] at h
            | some d3 =>
              rw [hcl] at h
              dsimp only at h
              have hfind := childLoop_find p t _ _ _ _ hcl
              cases hA : (siblings t.hierarchy (t.hierarchy.length + 1) hv.child).find?
                  (fun k => t.isArmor p k) with
              | none =>
                obtain ⟨h3f, h3p⟩ := hfind.1 hA
                have h3f' : d3.found_armor_center_p = false := h3f.trans hfound
                rw [if_neg (by simp [h3f'])] at h
                have := ih _ _ _ h3f' h
                simp only [Option.or]
                refine ⟨fun hn => ?_, fun k hk => this.2 k hk⟩
                obtain ⟨h1, h2⟩ := this.1 hn
                exact ⟨h1, h2.trans h3p⟩
              | some k0 =>
                obtain ⟨h3f, h3c⟩ := hfind.2 k0 hA
                rw [if_pos h3f] at h
                cases h
                simp only [Option.or]
                refine ⟨fun hn => (by cases hn), ?_⟩
                intro k hk
                cases hk
                exact ⟨h3f, h3c⟩
          · rw [if_neg hf] at h
            rw [hsib, List.filter_cons_of_neg (by rw [hisF]; exact hf)]
            exact ih hv.next { d with fan_encircle_rect_ := c.minAreaRect } dw hfound h

end RuneDetector

namespace RuneDetector

/-- The contour walk of `FindArmorCenterP`, entered with the flag
`found_armor_center_p` clear, against `firstMatch`. -/
theorem walk_firstMatch (p : RuneDetectorDebug) (t : ContourTree) (d dw : RuneDetector)
    (hne : t.hierarchy ≠ []) (hfound : d.found_armor_center_p = false)
    (h : parentLoop p t.contours t.hierarchy (t.hierarchy.length + 1) 0 (storeContours t d) =
      some dw) :
    (t.firstMatch p = none →
      dw.found_armor_center_p = false ∧ dw.armor_center_p_ = d.armor_center_p_) ∧
    (∀ k, t.firstMatch p = some k → dw.found_armor_center_p = true ∧
      ∃ c, t.contours[k]? = some c ∧ dw.armor_center_p_ = c.minAreaRect.center) := by
  have htop : t.topLevel = siblings t.hierarchy (t.hierarchy.length + 1) 0 := by
    unfold ContourTree.topLevel
    rw [if_neg]
    simpa using hne
  have := parentLoop_firstMatch p t _ _ _ _ (show (storeContours t d).found_armor_center_p = false
    from hfound) h
  unfold ContourTree.firstMatch
  rw [htop]
  exact this

theorem firstMatch_none_of_noArmorMatch (p : RuneDetectorDebug) (t : ContourTree)
    (hno : t.NoArmorMatch p) : t.firstMatch p = none := by
  unfold ContourTree.firstMatch
  rw [List.find?_eq_none]
  intro j hj
  rw [List.mem_flatten] at hj
  obtain ⟨l, hl, hjl⟩ := hj
  rw [List.mem_map] at hl
  obtain ⟨i, hi, rfl⟩ := hl
  rw [List.mem_filter] at hi
  simp [hno i hi.1 hi.2 j hjl]

/-- The detector left by `FindRotateDirection` is the one left by
`FindArmorCenterP`, up to the direction. -/
theorem FindRotateDirection_detector (p : RuneDetectorDebug) (m : LibM) (t : ContourTree)
    (buf : List Point2f) (d : RuneDetector) (ok : Bool) (d1 : RuneDetector)
    (hP : FindArmorCenterP p m t d = some (ok, d1)) :
    ∃ buf' c, FindRotateDirection p m t buf d = some (buf', { d1 with clockwise_ := c }) := by
  unfold FindRotateDirection
  rw [hP]
  dsimp only
  split
  · split
    · exact ⟨_, d1.clockwise_, rfl⟩
    · split
      · exact ⟨_, _, rfl⟩
      · split <;> exact ⟨_, _, rfl⟩
  · exact ⟨_, d1.clockwise_, rfl⟩

/-- The detector left by `Run` is the one left by its `FindArmorCenterP` call,
up to the direction. -/
theorem Run_detector (p : RuneDetectorDebug) (m : LibM) (t : ContourTree)
    (buf : List Point2f) (d : RuneDetector) (ok : Bool) (d1 : RuneDetector)
    (hP : FindArmorCenterP p m t d = some (ok, d1)) :
    ∃ buf' c, Run p m t buf d =
      some (snapshot { d1 with clockwise_ := c }, buf', { d1 with clockwise_ := c }) := by
  unfold Run
  dsimp only
  by_cases h0 : d.clockwise_ = 0
  · obtain ⟨buf', c, hr⟩ := FindRotateDirection_detector p m t buf d ok d1 hP
    rw [if_pos h0, hr]
    exact ⟨buf', c, rfl⟩
  · rw [if_neg h0, hP]
    exact ⟨buf, d1.clockwise_, rfl⟩

end RuneDetector

/-! ## Output snapshot and armor-point search: main results -/

namespace RuneDetector

/-- Counterexample to C6: after one frame in which P, R and G are found, a
frame in which nothing is segmented returns a snapshot whose three centers are
the origin while its vectors R→P and R→G still are (0, -80) and (0, -45). -/
theorem Run_missing_points_keep_vectors :
    (RunAll Sample.thresholds Sample.upright [Sample.frameA, Sample.emptyFrame] []
      Sample.fresh).map (fun r => r.1.map (fun out =>
        (out.armor_center_p, out.energy_center_r, out.fan_center_g, out.rtp_vec, out.rtg_vec))) =
      some [(⟨100, 70⟩, ⟨100, 150⟩, ⟨100, 105⟩, ⟨0, -80⟩, ⟨0, -45⟩),
        (⟨0, 0⟩, ⟨0, 0⟩, ⟨0, 0⟩, ⟨0, -80⟩, ⟨0, -45⟩)] := by
  decide!

/-- C6, amended. `Run` returns on a well-linked contour tree, and whenever its
`FindArmorCenterP` call reports failure (P, R and G not found together) the
snapshot it returns has the three centers P, R, G at the origin and carries the
vectors R→P and R→G that the detector held before the call. -/
theorem Run_failure_snapshot (p : RuneDetectorDebug) (m : LibM) (t : ContourTree)
    (buf : List Point2f) (d : RuneDetector) :
    (t.WellLinked → ∃ r, Run p m t buf d = some r) ∧
    ∀ d1, FindArmorCenterP p m t d = some (false, d1) →
      ∃ out buf' d', Run p m t buf d = some (out, buf', d') ∧
        out.armor_center_p = ⟨0, 0⟩ ∧ out.energy_center_r = ⟨0, 0⟩ ∧
        out.fan_center_g = ⟨0, 0⟩ ∧
        out.rtp_vec = d.rtp_vec_ ∧ out.rtg_vec = d.rtg_vec_ := by
  refine ⟨Run_returns p m t buf d, ?_⟩
  intro d1 hP
  obtain ⟨buf', c, hr⟩ := Run_detector p m t buf d false d1 hP
  obtain ⟨hp, hrr, hg, hrtp, hrtg⟩ := (FindArmorCenterP_result p m t d false d1 hP).2.2 rfl
  exact ⟨_, _, _, hr, hp, hrr, hg, hrtp, hrtg⟩

/-- Witness for C6, amended: the detector left by `frameA`, run on the empty
frame, reports the three centers at the origin and the old vector R→P. -/
theorem Run_failure_snapshot_witness :
    (∃ r, Run Sample.thresholds Sample.upright Sample.emptyFrame [] Sample.afterA = some r) ∧
    (Run Sample.thresholds Sample.upright Sample.emptyFrame [] Sample.afterA).map
      (fun r => (r.1.armor_center_p, r.1.energy_center_r, r.1.fan_center_g, r.1.rtp_vec)) =
      some (⟨0, 0⟩, ⟨0, 0⟩, ⟨0, 0⟩, ⟨0, -80⟩) := by
  have hrule := Run_failure_snapshot Sample.thresholds Sample.upright Sample.emptyFrame []
    Sample.afterA
  refine ⟨hrule.1 (by decide), ?_⟩
  obtain ⟨out, buf', d', hr, hp, hrr, hg, hrtp, -⟩ :=
    hrule.2 (resetCenters (storeContours Sample.emptyFrame Sample.afterA)) (by decide!)
  rw [hr]
  simp only [Option.map_some', hp, hrr, hg, hrtp]
  rfl

/-- Counterexample to C7: on the empty contour tree, which has no matching
child, `FindArmorCenterP` called on the detector left by `frameA` returns false
and moves P from (100, 70) to the origin. -/
theorem FindArmorCenterP_failure_moves_P :
    FindArmorCenterP Sample.thresholds Sample.upright Sample.frameA Sample.fresh =
        some (true, Sample.afterA) ∧
      Sample.emptyFrame.NoArmorMatch Sample.thresholds ∧
      Sample.afterA.armor_center_p_ = ⟨100, 70⟩ ∧
      (FindArmorCenterP Sample.thresholds Sample.upright Sample.emptyFrame Sample.afterA).map
        (fun r => (r.1, r.2.armor_center_p_)) = some (false, ⟨0, 0⟩) := by
  decide!

/-- C7, amended. Whenever `FindArmorCenterP` returns false, armor center P is
the origin after the call; and on a well-linked contour tree in which no child
of a fan-passing top-level contour passes the armor tests it does return false
when the hierarchy is empty or `found_armor_center_p` was false before the
call. -/
theorem FindArmorCenterP_no_match (p : RuneDetectorDebug) (m : LibM) (t : ContourTree)
    (d : RuneDetector) :
    (∀ d', FindArmorCenterP p m t d = some (false, d') → d'.armor_center_p_ = ⟨0, 0⟩) ∧
    (t.WellLinked → t.NoArmorMatch p →
      (d.found_armor_center_p = false ∨ t.hierarchy = []) →
      ∃ d', FindArmorCenterP p m t d = some (false, d')) := by
  refine ⟨fun d' h => ((FindArmorCenterP_result p m t d false d' h).2.2 rfl).1, ?_⟩
  intro hw hno hstate
  obtain ⟨⟨ok, d'⟩, hP⟩ := FindArmorCenterP_returns p m t d hw
  rcases FindArmorCenterP_cases p m t d _ hP with ⟨-, hr⟩ | ⟨hne, dw, hdw, hfr, -, -, -, hr⟩
  · rw [hP, hr]
    exact ⟨_, rfl⟩
  · rcases hstate with hfound | hempty
    · have hfm := (walk_firstMatch p t d dw hne hfound hdw).1
        (firstMatch_none_of_noArmorMatch p t hno)
      rcases afterWalk_cases p m dw hfr with ⟨-, h2⟩ | ⟨h1, -⟩ | ⟨h1, -⟩
      · rw [hP, hr, h2]
        exact ⟨_, rfl⟩
      · rw [hfm.1] at h1; cases h1
      · rw [hfm.1] at h1; cases h1
    · exact absurd hempty hne

/-- Witness for C7, amended: a blade whose only child is no armor plate, seen
by a fresh detector. -/
theorem FindArmorCenterP_no_match_witness :
    (FindArmorCenterP Sample.thresholds Sample.upright Sample.frameD Sample.fresh).map
      (fun r => (r.1, r.2.armor_center_p_)) = some (false, ⟨0, 0⟩) := by
  obtain ⟨hP0, hret⟩ :=
    FindArmorCenterP_no_match Sample.thresholds Sample.upright Sample.frameD Sample.fresh
  obtain ⟨d', h⟩ := hret (by decide) (by decide!) (Or.inl rfl)
  rw [h]
  simp only [Option.map_some', hP0 d' h]

/-- C8. Whenever `FindArmorCenterP` returns true, the stored vector R→P is
`armor_center_p_ - energy_center_r_` and the stored vector R→G is
`fan_center_g_ - energy_center_r_`, for the centers stored when the call
returns; `Run` then returns, and its snapshot carries these centers and these
two differences. -/
theorem FindArmorCenterP_vectors (p : RuneDetectorDebug) (m : LibM) (t : ContourTree)
    (buf : List Point2f) (d d' : RuneDetector)
    (h : FindArmorCenterP p m t d = some (true, d')) :
    d'.rtp_vec_ = d'.armor_center_p_ - d'.energy_center_r_ ∧
    d'.rtg_vec_ = d'.fan_center_g_ - d'.energy_center_r_ ∧
    ∃ out buf' d'', Run p m t buf d = some (out, buf', d'') ∧
      out.armor_center_p = d'.armor_center_p_ ∧ out.energy_center_r = d'.energy_center_r_ ∧
      out.fan_center_g = d'.fan_center_g_ ∧
      out.rtp_vec = out.armor_center_p - out.energy_center_r ∧
      out.rtg_vec = out.fan_center_g - out.energy_center_r := by
  obtain ⟨hrtp, hrtg⟩ := (FindArmorCenterP_result p m t d true d' h).2.1 rfl
  obtain ⟨buf', c, hr⟩ := Run_detector p m t buf d true d' h
  exact ⟨hrtp, hrtg, _, _, _, hr, rfl, rfl, rfl, hrtp, hrtg⟩

/-- Witness for C8: `frameA` seen by a fresh detector gives R→P = (0, -80)
and R→G = (0, -45). -/
theorem FindArmorCenterP_vectors_witness :
    Sample.afterA.rtp_vec_ = (⟨100, 70⟩ : Point2f) - ⟨100, 150⟩ ∧
      Sample.afterA.rtg_vec_ = (⟨100, 105⟩ : Point2f) - ⟨100, 150⟩ :=
  ⟨(FindArmorCenterP_vectors Sample.thresholds Sample.upright Sample.frameA [] Sample.fresh
      Sample.afterA (by decide!)).1,
    (FindArmorCenterP_vectors Sample.thresholds Sample.upright Sample.frameA [] Sample.fresh
      Sample.afterA (by decide!)).2.1⟩

/-- C9, the code at a failing input. In `frameB` the first child passing the
armor tests under a fan-passing top-level contour is contour 2, with rectangle
center (300, 70), and a fresh detector stores it as P.  The detector left by a
successful `frameA` still has `found_armor_center_p` set: its parent loop stops
after the bare blade (contour 0), the call returns true, and P is still
(100, 70). -/
theorem FindArmorCenterP_stale_flag_stops_search :
    FindArmorCenterP Sample.thresholds Sample.upright Sample.frameA Sample.fresh =
        some (true, Sample.afterA) ∧
      Sample.frameB.WellLinked ∧
      Sample.frameB.firstMatch Sample.thresholds = some 2 ∧
      Sample.frameB.contours[2]?.map (fun c => c.minAreaRect.center) = some ⟨300, 70⟩ ∧
      (FindArmorCenterP Sample.thresholds Sample.upright Sample.frameB Sample.fresh).map
        (fun r => (r.1, r.2.armor_center_p_)) = some (true, ⟨300, 70⟩) ∧
      (FindArmorCenterP Sample.thresholds Sample.upright Sample.frameB Sample.afterA).map
        (fun r => (r.1, r.2.armor_center_p_, r.2.fan_encircle_rect_.center)) =
          some (true, ⟨100, 70⟩, ⟨100, 100⟩) := by
  decide!

/-- C10. Bounding-box area filter: when the parent loop is at a contour whose
minimum-area rectangle has an area below `MinBoundingBoxArea`, the contour
fails the fan tests whatever its ratio and contour area, and the iteration
only records the rectangle and moves on to the next sibling: the child link is
not followed, and `armor_encircle_rect_`, `armor_center_p_` and
`found_armor_center_p` are not written. -/
theorem parentLoop_rejects_small_box (p : RuneDetectorDebug) (cs : List Contour)
    (hs : List Vec4i) (fuel : Nat) (i : Int) (d : RuneDetector) (c : Contour) (h : Vec4i)
    (hi : 0 ≤ i) (hc : cs[i.toNat]? = some c) (hh : hs[i.toNat]? = some h)
    (harea : c.minAreaRect.size.area < p.MinBoundingBoxArea) :
    fanPasses p c = false ∧
    parentLoop p cs hs (fuel + 1) i d =
      parentLoop p cs hs fuel h.next { d with fan_encircle_rect_ := c.minAreaRect } := by
  have hf : fanPasses p c = false := by
    unfold fanPasses
    dsimp only
    rw [if_pos harea]
  refine ⟨hf, ?_⟩
  conv_lhs => unfold parentLoop
  rw [if_neg (by omega), hc, hh]
  dsimp only
  rw [if_neg (by simp [hf])]

/-- Witness for C10: in `frameC` the blade-shaped contour 0 has ratio 1/2 and
contour area 600, both inside the limits, and an armor-sized child, but
rectangle area 800; the walk ends with no armor point. -/
theorem parentLoop_rejects_small_box_witness :
    (parentLoop Sample.thresholds Sample.frameC.contours Sample.frameC.hierarchy 4 0
      Sample.fresh).map (fun d => (d.found_armor_center_p, d.armor_center_p_,
        d.armor_encircle_rect_)) = some (false, ⟨0, 0⟩, ⟨⟨0, 0⟩, ⟨0, 0⟩, 0⟩) := by
  rw [(parentLoop_rejects_small_box Sample.thresholds Sample.frameC.contours
    Sample.frameC.hierarchy 3 0 Sample.fresh Sample.smallFan ⟨2, -1, 1, -1⟩ (by decide)
    (by decide!) (by decide!) (by decide!)).2]
  decide!

end RuneDetector

/-! ## Center R -/

namespace RuneDetector

/-- The accumulation of `FindCenterR` in closed form: skipping the candidates
outside the window, after `n` folded candidates the running value is the
weighted mean of the start value (weight `i - 1`) and the candidates. -/
theorem foldCenterR_closed (R_rect : Rect) (offset : Point2f) :
    ∀ (l : List Point2f) (found : Bool) (r : Point2f) (i : Int), 1 ≤ i →
      foldCenterR R_rect offset l (found, r, i) =
        if l.filter (fun c => c.inside R_rect) = [] then (found, r, i)
        else (true,
          ⟨(r.x * ((i - 1 : Int) : ℚ) +
              ((l.filter (fun c => c.inside R_rect)).map (fun c => c.x - offset.x)).sum) /
              (((i - 1 : Int) : ℚ) + ((l.filter (fun c => c.inside R_rect)).length : ℚ)),
            (r.y * ((i - 1 : Int) : ℚ) +
              ((l.filter (fun c => c.inside R_rect)).map (fun c => c.y - offset.y)).sum) /
              (((i - 1 : Int) : ℚ) + ((l.filter (fun c => c.inside R_rect)).length : ℚ))⟩,
          i + ((l.filter (fun c => c.inside R_rect)).length : Int)) := by
  intro l
  induction l with
  | nil => intro found r i _; simp [foldCenterR]
  | cons c rest ih =>
    intro found r i hi
    have hiq : ((i : Int) : ℚ) ≠ 0 := by
      have : (0 : ℚ) < (i : ℚ) := by exact_mod_cast (by omega : (0 : Int) < i)
      exact ne_of_gt this
    unfold foldCenterR
    by_cases hc : c.inside R_rect = true
    · rw [if_pos hc, ih _ _ _ (by omega : (1 : Int) ≤ i + 1),
        List.filter_cons_of_pos (by simpa using hc)]
      have hx : (((c - offset).divBy (i : ℚ) + (r.scale ((i - 1 : Int) : ℚ)).divBy (i : ℚ)) :
          Point2f).x = (r.x * ((i - 1 : Int) : ℚ) + (c.x - offset.x)) / (i : ℚ) := by
        show (c.x - offset.x) / (i : ℚ) + r.x * ((i - 1 : Int) : ℚ) / (i : ℚ) = _
        ring
      have hy : (((c - offset).divBy (i : ℚ) + (r.scale ((i - 1 : Int) : ℚ)).divBy (i : ℚ)) :
          Point2f).y = (r.y * ((i - 1 : Int) : ℚ) + (c.y - offset.y)) / (i : ℚ) := by
        show (c.y - offset.y) / (i : ℚ) + r.y * ((i - 1 : Int) : ℚ) / (i : ℚ) = _
        ring
      have hcast : ((i + 1 - 1 : Int) : ℚ) = (i : ℚ) := by push_cast; ring
      by_cases hrest : rest.filter (fun c => c.inside R_rect) = []
      · rw [if_pos hrest, if_neg (by simp), hrest]
        simp only [List.map_cons, List.map_nil, List.sum_cons, List.sum_nil, List.length_cons,
          List.length_nil, Prod.mk.injEq, Point2f.mk.injEq, true_and]
        refine ⟨?_, ?_⟩
        · cases hp : (c - offset).divBy (i : ℚ) + (r.scale ((i - 1 : Int) : ℚ)).divBy (i : ℚ) with
          | mk px py =>
            rw [hp] at hx hy
            simp only at hx hy
            rw [Point2f.mk.injEq]
            refine ⟨?_, ?_⟩
            · rw [hx]; congr 1
              · ring
              · push_cast; ring
            · rw [hy]; congr 1
              · ring
              · push_cast; ring
        · push_cast; ring
      · rw [if_neg hrest, if_neg (by simp)]
        simp only [List.map_cons, List.sum_cons, List.length_cons, Prod.mk.injEq,
          Point2f.mk.injEq, true_and]
        have hpos : (0 : ℚ) < (i : ℚ) := by exact_mod_cast (by omega : (0 : Int) < i)
        have hden : (i : ℚ) + ((rest.filter (fun c => c.inside R_rect)).length : ℚ) ≠ 0 := by
          have : (0 : ℚ) ≤ ((rest.filter (fun c => c.inside R_rect)).length : ℚ) :=
            Nat.cast_nonneg _
          linarith
        refine ⟨⟨?_, ?_⟩, ?_⟩
        · rw [hx, hcast]
          rw [div_mul_cancel₀ _ hiq]
          congr 1
          · ring
          · push_cast; ring
        · rw [hy, hcast]
          rw [div_mul_cancel₀ _ hiq]
          congr 1
          · ring
          · push_cast; ring
        · push_cast; ring
    · rw [if_neg hc, ih _ _ _ hi, List.filter_cons_of_neg (by simpa using hc)]

end RuneDetector

namespace RuneDetector

/-- `FindCenterR` in closed form: it fails, with R at the origin, when no
candidate lies inside the window, and otherwise stores the arithmetic mean of
the in-window candidates, each minus `offset_center_r_`. -/
theorem FindCenterR_closed (p : RuneDetectorDebug) (m : LibM) (d : RuneDetector) :
    FindCenterR p m d =
      if inWindow p m d = [] then
        (false, { d with found_energy_center_r := false, energy_center_r_ := ⟨0, 0⟩ })
      else
        (true, { d with found_energy_center_r := true,
                        energy_center_r_ := meanMinusOffset d.offset_center_r_ (inWindow p m d) }) := by
  unfold FindCenterR inWindow
  dsimp only
  by_cases hemp : (possibleCenterR p d.fan_contours_).isEmpty = true
  · rw [if_pos hemp]
    have : possibleCenterR p d.fan_contours_ = [] := by simpa using hemp
    rw [this]
    simp
  · rw [if_neg hemp, foldCenterR_closed _ _ _ _ _ _ (le_refl 1)]
    by_cases hw : (possibleCenterR p d.fan_contours_).filter
        (fun c => c.inside (searchRect m d.fan_encircle_rect_ d.armor_center_p_)) = []
    · rw [if_pos hw, if_pos hw]
      simp
    · rw [if_neg hw, if_neg hw]
      simp [meanMinusOffset]

end RuneDetector

namespace RuneDetector

theorem inWindow_perm (p : RuneDetectorDebug) (m : LibM) (d : RuneDetector)
    (cs : List Contour) (hperm : d.fan_contours_.Perm cs) :
    (inWindow p m { d with fan_contours_ := cs }).Perm (inWindow p m d) := by
  unfold inWindow possibleCenterR
  exact ((hperm.symm.filter _).map _).filter _

theorem meanMinusOffset_perm (offset : Point2f) (W1 W2 : List Point2f) (h : W1.Perm W2) :
    meanMinusOffset offset W1 = meanMinusOffset offset W2 := by
  unfold meanMinusOffset
  rw [(h.map (fun c => c.x - offset.x)).sum_eq, (h.map (fun c => c.y - offset.y)).sum_eq,
    h.length_eq]

/-- C11. `FindCenterR` failure: when no candidate of `possible_center_r` lies
inside the bounding box of the search rectangle, and in particular when there
is no candidate, `FindCenterR` returns false with `energy_center_r_` at the
origin and `found_energy_center_r` clear. -/
theorem FindCenterR_no_candidate_in_window (p : RuneDetectorDebug) (m : LibM)
    (d : RuneDetector) :
    ((∀ c ∈ possibleCenterR p d.fan_contours_,
        c.inside (searchRect m d.fan_encircle_rect_ d.armor_center_p_) = false) →
      (FindCenterR p m d).1 = false ∧ (FindCenterR p m d).2.energy_center_r_ = ⟨0, 0⟩ ∧
        (FindCenterR p m d).2.found_energy_center_r = false) ∧
    (possibleCenterR p d.fan_contours_ = [] →
      (FindCenterR p m d).1 = false ∧ (FindCenterR p m d).2.energy_center_r_ = ⟨0, 0⟩) := by
  have key : (∀ c ∈ possibleCenterR p d.fan_contours_,
      c.inside (searchRect m d.fan_encircle_rect_ d.armor_center_p_) = false) →
      (FindCenterR p m d).1 = false ∧ (FindCenterR p m d).2.energy_center_r_ = ⟨0, 0⟩ ∧
        (FindCenterR p m d).2.found_energy_center_r = false := by
    intro hno
    have hw : inWindow p m d = [] := by
      unfold inWindow
      rw [List.filter_eq_nil_iff]
      intro c hc
      simp [hno c hc]
    rw [FindCenterR_closed, if_pos hw]
    exact ⟨rfl, rfl, rfl⟩
  refine ⟨key, ?_⟩
  intro hemp
  have := key (by rw [hemp]; intro c hc; cases hc)
  exact ⟨this.1, this.2.1⟩

/-- Witness for C11: the only R-sized mark lies below the other blade, outside
the window. -/
theorem FindCenterR_no_candidate_in_window_witness :
    possibleCenterR Sample.thresholds Sample.farMark.fan_contours_ = [⟨100, 150⟩] ∧
      (FindCenterR Sample.thresholds Sample.upright Sample.farMark).1 = false ∧
      (FindCenterR Sample.thresholds Sample.upright Sample.farMark).2.energy_center_r_ =
        ⟨0, 0⟩ := by
  have h := (FindCenterR_no_candidate_in_window Sample.thresholds Sample.upright
    Sample.farMark).1 (by decide!)
  exact ⟨by decide!, h.1, h.2.1⟩

/-- In exact arithmetic the accumulation of `FindCenterR` is order
independent: no window, correction, start value and pair of in-window candidate
sequences that are permutations of each other give two different centers R.
Any dependence on the scan order is an effect of rounding. -/
theorem foldCenterR_exact_order_independent :
    ¬ ∃ (R_rect : Rect) (offset r0 : Point2f) (l1 l2 : List Point2f),
      l1.Perm l2 ∧ (∀ c ∈ l1, c.inside R_rect = true) ∧
        (foldCenterR R_rect offset l1 (false, r0, 1)).2.1 ≠
          (foldCenterR R_rect offset l2 (false, r0, 1)).2.1 := by
  rintro ⟨R_rect, offset, r0, l1, l2, hperm, -, hne⟩
  apply hne
  have hf : (l1.filter (fun c => c.inside R_rect)).Perm (l2.filter (fun c => c.inside R_rect)) :=
    hperm.filter _
  rw [foldCenterR_closed _ _ _ _ _ _ (le_refl 1), foldCenterR_closed _ _ _ _ _ _ (le_refl 1)]
  by_cases h1 : l1.filter (fun c => c.inside R_rect) = []
  · have h2 : l2.filter (fun c => c.inside R_rect) = [] := by
      rw [h1] at hf
      exact hf.symm.eq_nil
    rw [if_pos h1, if_pos h2]
  · have h2 : l2.filter (fun c => c.inside R_rect) ≠ [] := by
      intro h2
      rw [h2] at hf
      exact h1 hf.eq_nil
    rw [if_neg h1, if_neg h2]
    simp only
    rw [(hf.map (fun c => c.x - offset.x)).sum_eq, (hf.map (fun c => c.y - offset.y)).sum_eq,
      hf.length_eq]

/-- C12. The online-mean accumulation of `FindCenterR`, carried out in the
`float` arithmetic of `cv::Point2f`, depends on the insertion order: there are
two in-window candidate sequences that are permutations of each other for which
the resulting center R differs.  With the three marks at (101, 145),
(102, 160) and (104, 175), all inside the search window, the scan order
101, 102, 104 leaves R.x = 6706517 / 65536 and the scan order 101, 104, 102
leaves R.x = 13413035 / 131072, one unit in the last place apart. -/
theorem foldCenterR32_order_dependent :
    possibleCenterR Sample.thresholds Sample.threeMarks.fan_contours_ =
      [⟨101, 145⟩, ⟨102, 160⟩, ⟨104, 175⟩] ∧
    possibleCenterR Sample.thresholds Sample.threeMarksSwapped.fan_contours_ =
      [⟨101, 145⟩, ⟨104, 175⟩, ⟨102, 160⟩] ∧
    searchRect Sample.upright Sample.threeMarks.fan_encircle_rect_
      Sample.threeMarks.armor_center_p_ = ⟨80, 140, 41, 41⟩ ∧
    searchRect Sample.upright Sample.threeMarksSwapped.fan_encircle_rect_
      Sample.threeMarksSwapped.armor_center_p_ = ⟨80, 140, 41, 41⟩ ∧
    (∀ c ∈ possibleCenterR Sample.thresholds Sample.threeMarks.fan_contours_,
      c.inside ⟨80, 140, 41, 41⟩ = true) ∧
    foldCenterR32 ⟨80, 140, 41, 41⟩ Sample.threeMarks.offset_center_r_
      (possibleCenterR Sample.thresholds Sample.threeMarks.fan_contours_)
      (false, Sample.threeMarks.energy_center_r_, 1) =
        (true, ⟨6706517 / 65536, 160⟩, 4) ∧
    foldCenterR32 ⟨80, 140, 41, 41⟩ Sample.threeMarksSwapped.offset_center_r_
      (possibleCenterR Sample.thresholds Sample.threeMarksSwapped.fan_contours_)
      (false, Sample.threeMarksSwapped.energy_center_r_, 1) =
        (true, ⟨13413035 / 131072, 160⟩, 4) ∧
    ∃ (R_rect : Rect) (offset r0 : Point2f) (l1 l2 : List Point2f),
      l1.Perm l2 ∧ (∀ c ∈ l1, c.inside R_rect = true) ∧
        (foldCenterR32 R_rect offset l1 (false, r0, 1)).2.1 ≠
          (foldCenterR32 R_rect offset l2 (false, r0, 1)).2.1 := by
  refine ⟨by decide!, by decide!, by decide!, by decide!, by decide!, by decide!, by decide!,
    ⟨80, 140, 41, 41⟩, ⟨0, 0⟩, ⟨0, 0⟩, [⟨101, 145⟩, ⟨102, 160⟩, ⟨104, 175⟩],
    [⟨101, 145⟩, ⟨104, 175⟩, ⟨102, 160⟩], by decide, by decide!, by decide!⟩

/-- In exact arithmetic `FindCenterR` does not depend on the scan order: for
every prior state, scanning the contours in any permuted order gives the same
return value and the same center R, which on success is the arithmetic mean of
the in-window candidates, each minus `offset_center_r_`. -/
theorem FindCenterR_exact_scan_order (p : RuneDetectorDebug) (m : LibM) (d : RuneDetector)
    (cs : List Contour) (hperm : d.fan_contours_.Perm cs) :
    (FindCenterR p m { d with fan_contours_ := cs }).1 = (FindCenterR p m d).1 ∧
    (FindCenterR p m { d with fan_contours_ := cs }).2.energy_center_r_ =
      (FindCenterR p m d).2.energy_center_r_ ∧
    ((FindCenterR p m d).1 = true → (FindCenterR p m d).2.energy_center_r_ =
      meanMinusOffset d.offset_center_r_ (inWindow p m d)) := by
  have hw := inWindow_perm p m d cs hperm
  rw [FindCenterR_closed, FindCenterR_closed]
  by_cases h1 : inWindow p m d = []
  · have h2 : inWindow p m { d with fan_contours_ := cs } = [] := by
      rw [h1] at hw
      exact hw.eq_nil
    rw [if_pos h1, if_pos h2]
    exact ⟨rfl, rfl, fun h => (by cases h)⟩
  · have h2 : inWindow p m { d with fan_contours_ := cs } ≠ [] := by
      intro h2
      rw [h2] at hw
      exact h1 hw.symm.eq_nil
    rw [if_neg h1, if_neg h2]
    exact ⟨rfl, meanMinusOffset_perm _ _ _ hw, fun _ => rfl⟩

end RuneDetector

/-! ## Fan center G -/

namespace RuneDetector

/-- The inner loop never writes the fan rectangle, and when it sets the flag
the armor rectangle is the one of the sibling it stopped at. -/
theorem childLoop_rects (p : RuneDetectorDebug) (t : ContourTree) :
    ∀ (fuel : Nat) (j : Int) (d d' : RuneDetector),
      childLoop p t.contours t.hierarchy fuel j d = some d' →
      d'.fan_encircle_rect_ = d.fan_encircle_rect_ ∧
      (∀ k, (siblings t.hierarchy fuel j).find? (fun k => t.isArmor p k) = some k →
        k ∈ siblings t.hierarchy fuel j ∧
        ∃ c, t.contours[k]? = some c ∧ d'.armor_encircle_rect_ = c.minAreaRect) := by
  intro fuel
  induction fuel with
  | zero => intro j d d' h; simp [childLoop] at h
  | succ n ih =>
    intro j d d' h
    unfold childLoop at h
    by_cases hj : j < 0
    · rw [if_pos hj] at h
      cases h
      simp [siblings, hj]
    · rw [if_neg hj] at h
      cases hc : t.contours[j.toNat]? with
      | none => simp [hc] at h
      | some c =>
        rw [hc] at h
        dsimp only at h
        have hsib : siblings t.hierarchy (n + 1) j = j.toNat ::
            (match t.hierarchy[j.toNat]? with
              | none => []
              | some h => siblings t.hierarchy n h.next) := by
          simp [siblings, hj]
        have hisA : t.isArmor p j.toNat = armorPasses p c.minAreaRect := by
          simp [ContourTree.isArmor, hc]
        by_cases ha : armorPasses p c.minAreaRect = true
        · rw [if_pos ha] at h
          cases h
          rw [hsib, List.find?_cons_of_pos _ (by rw [hisA]; exact ha)]
          refine ⟨rfl, ?_⟩
          intro k hk
          cases hk
          exact ⟨List.mem_cons_self _ _, c, hc, rfl⟩
        · rw [if_neg ha] at h
          cases hh : t.hierarchy[j.toNat]? with
          | none => simp [hh] at h
          | some hv =>
            rw [hh] at h
            dsimp only at h
            rw [hsib, List.find?_cons_of_neg _ (by rw [hisA]; exact ha), hh]
            have := ih hv.next { d with armor_encircle_rect_ := c.minAreaRect } d' h
            refine ⟨this.1, ?_⟩
            intro k hk
            obtain ⟨hmem, hrest⟩ := this.2 k hk
            exact ⟨List.mem_cons_of_mem _ hmem, hrest⟩

/-- The outer loop, started with the flag `found_armor_center_p` clear: when
it finds the first match `k`, the armor rectangle is the one of contour `k` and
the fan rectangle is the one of a fan-passing top-level contour that has `k`
among its children. -/
theorem parentLoop_rects (p : RuneDetectorDebug) (t : ContourTree) :
    ∀ (fuel : Nat) (i : Int) (d dw : RuneDetector),
      d.found_armor_center_p = false →
      parentLoop p t.contours t.hierarchy fuel i d = some dw →
      ∀ k, ((((siblings t.hierarchy fuel i).filter (fun k => t.isFan p k)).map
          (fun k => t.childrenOf k)).flatten).find? (fun k => t.isArmor p k) = some k →
        (∃ c, t.contours[k]? = some c ∧ dw.armor_encircle_rect_ = c.minAreaRect) ∧
        ∃ i0 ∈ siblings t.hierarchy fuel i, t.isFan p i0 = true ∧ k ∈ t.childrenOf i0 ∧
          ∃ c0, t.contours[i0]? = some c0 ∧ dw.fan_encircle_rect_ = c0.minAreaRect := by
  intro fuel
  induction fuel with
  | zero => intro i d dw _ h; simp [parentLoop] at h
  | succ n ih =>
    intro i d dw hfound h
    unfold parentLoop at h
    by_cases hi : i < 0
    · rw [if_pos hi] at h
      cases h
      simp [siblings, hi]
    · rw [if_neg hi] at h
      cases hc : t.contours[i.toNat]? with
      | none => simp [hc] at h
      | some c =>
        cases hh : t.hierarchy[i.toNat]? with
        | none => simp [hc, hh] at h
        | some hv =>
          rw [hc, hh] at h
          dsimp only at h
          have hsib : siblings t.hierarchy (n + 1) i =
              i.toNat :: siblings t.hierarchy n hv.next := by
            simp [siblings, hi, hh]
          have hisF : t.isFan p i.toNat = fanPasses p c := by
            simp [ContourTree.isFan, hc]
          have hch : t.childrenOf i.toNat =
              siblings t.hierarchy (t.hierarchy.length + 1) hv.child := by
            simp [ContourTree.childrenOf, hh]
          by_cases hf : fanPasses p c = true
          · rw [if_pos hf] at h
            rw [hsib, List.filter_cons_of_pos (by rw [hisF]; exact hf), List.map_cons,
              List.flatten_cons, List.find?_append, hch]
            cases hcl : childLoop p t.contours t.hierarchy (t.hierarchy.length + 1) hv.child
                { d with fan_encircle_rect_ := c.minAreaRect } with
            | none => simp [hcl] at h
            | some d3 =>
              rw [hcl] at h
              dsimp only at h
              have hfind := childLoop_find p t _ _ _ _ hcl
              have hrect := childLoop_rects p t _ _ _ _ hcl
              cases hA : (siblings t.hierarchy (t.hierarchy.length + 1) hv.child).find?
                  (fun k => t.isArmor p k) with
              | none =>
                obtain ⟨h3f, -⟩ := hfind.1 hA
                have h3f' : d3.found_armor_center_p = false := h3f.trans hfound
                rw [if_neg (by simp [h3f'])] at h
                have := ih _ _ _ h3f' h
                simp only [Option.or]
                intro k hk
                obtain ⟨hk1, i0, hi0, hfan, hmem, hc0⟩ := this k hk
                exact ⟨hk1, i0, List.mem_cons_of_mem _ hi0, hfan, hmem, hc0⟩
              | some k0 =>
                obtain ⟨h3f, -⟩ := hfind.2 k0 hA
                rw [if_pos h3f] at h
                cases h
                simp only [Option.or]
                intro k hk
                cases hk
                obtain ⟨hmem, hk1⟩ := hrect.2 k0 hA
                refine ⟨hk1, i.toNat, List.mem_cons_self _ _, by rw [hisF]; exact hf, ?_,
                  c, hc, hrect.1⟩
                rw [hch]
                exact hmem
          · rw [if_neg hf] at h
            rw [hsib, List.filter_cons_of_neg (by rw [hisF]; exact hf)]
            intro k hk
            obtain ⟨hk1, i0, hi0, hfan, hmem, hc0⟩ :=
              ih hv.next { d with fan_encircle_rect_ := c.minAreaRect } dw hfound h k hk
            exact ⟨hk1, i0, List.mem_cons_of_mem _ hi0, hfan, hmem, hc0⟩

end RuneDetector

namespace RuneDetector

theorem blend_components (a r f : Point2f) :
    ((a.scale (1 / 4) + r.scale (1 / 4)) + f.scale (1 / 2)).x =
        1 / 4 * a.x + 1 / 4 * r.x + 1 / 2 * f.x ∧
      ((a.scale (1 / 4) + r.scale (1 / 4)) + f.scale (1 / 2)).y =
        1 / 4 * a.y + 1 / 4 * r.y + 1 / 2 * f.y := by
  refine ⟨?_, ?_⟩
  · show a.x * (1 / 4) + r.x * (1 / 4) + f.x * (1 / 2) = _
    ring
  · show a.y * (1 / 4) + r.y * (1 / 4) + f.y * (1 / 2) = _
    ring

/-- The fan center G after `FindArmorCenterP`: whenever the method returns,
the flag `found_energy_center_r` tells whether center R was found in that call;
if it was, G is `0.25 * armor_rect_center + 0.25 * R + 0.5 * fan_rect_center`
componentwise for the rectangles and the center R the detector holds, and if it
was not, G is the origin.  When the flag `found_armor_center_p` was clear
before the call, the armor rectangle is the one of the first matching child and
the fan rectangle the one of a fan-passing top-level contour that has this
child among its children. -/
theorem FindArmorCenterP_fan_center (p : RuneDetectorDebug) (m : LibM) (t : ContourTree)
    (d : RuneDetector) (ok : Bool) (d' : RuneDetector)
    (h : FindArmorCenterP p m t d = some (ok, d')) :
    d'.found_energy_center_r = ok ∧
    (ok = true →
      d'.fan_center_g_.x = 1 / 4 * d'.armor_encircle_rect_.center.x +
          1 / 4 * d'.energy_center_r_.x + 1 / 2 * d'.fan_encircle_rect_.center.x ∧
        d'.fan_center_g_.y = 1 / 4 * d'.armor_encircle_rect_.center.y +
          1 / 4 * d'.energy_center_r_.y + 1 / 2 * d'.fan_encircle_rect_.center.y) ∧
    (ok = false → d'.fan_center_g_ = ⟨0, 0⟩) ∧
    (ok = true → d.found_armor_center_p = false →
      ∃ k i0 ck c0, t.firstMatch p = some k ∧ i0 ∈ t.topLevel ∧ t.isFan p i0 = true ∧
        k ∈ t.childrenOf i0 ∧ t.contours[k]? = some ck ∧ t.contours[i0]? = some c0 ∧
        d'.armor_encircle_rect_ = ck.minAreaRect ∧ d'.fan_encircle_rect_ = c0.minAreaRect ∧
        d'.armor_center_p_ = ck.minAreaRect.center) := by
  rcases FindArmorCenterP_cases p m t d _ h with ⟨-, hr⟩ | ⟨hne, dw, hdw, hfr, -, -, -, hr⟩
  · cases hr
    exact ⟨rfl, fun h => (by cases h), fun _ => rfl, fun h => (by cases h)⟩
  · have hkept := FindCenterR_kept p m dw
    simp only [keptByCenterR, Prod.mk.injEq] at hkept
    obtain ⟨-, -, -, -, -, -, hP, -, -, -, hfan, harm, -⟩ := hkept
    have hflag := FindCenterR_flag p m dw
    rcases afterWalk_cases p m dw hfr with ⟨-, h2⟩ | ⟨-, h1, h2⟩ | ⟨hfound, h1, h2⟩
    · rw [h2] at hr
      cases hr
      exact ⟨hfr, fun h => (by cases h), fun _ => rfl, fun h => (by cases h)⟩
    · rw [h2] at hr
      cases hr
      refine ⟨?_, fun h => (by cases h), fun _ => rfl, fun h => (by cases h)⟩
      show (FindCenterR p m dw).2.found_energy_center_r = false
      rw [hflag, h1]
    · rw [h2] at hr
      cases hr
      refine ⟨?_, fun _ => ?_, fun h => (by cases h), fun _ hclear => ?_⟩
      · show (FindCenterR p m dw).2.found_energy_center_r = true
        rw [hflag, h1]
      · have hG : (afterWalkFound p m dw).fan_center_g_ =
            ((afterWalkFound p m dw).armor_encircle_rect_.center.scale (1 / 4) +
              (afterWalkFound p m dw).energy_center_r_.scale (1 / 4)) +
              (afterWalkFound p m dw).fan_encircle_rect_.center.scale (1 / 2) := rfl
        rw [hG]
        exact blend_components _ _ _
      · have hwalk := walk_firstMatch p t d dw hne hclear hdw
        have htop : t.topLevel = siblings t.hierarchy (t.hierarchy.length + 1) 0 := by
          unfold ContourTree.topLevel
          rw [if_neg]
          simpa using hne
        cases hfm : t.firstMatch p with
        | none =>
          rw [(hwalk.1 hfm).1] at hfound
          cases hfound
        | some k =>
          obtain ⟨-, ck, hck, hPk⟩ := hwalk.2 k hfm
          have hfm' := hfm
          unfold ContourTree.firstMatch at hfm'
          rw [htop] at hfm'
          obtain ⟨⟨ck', hck', harmk⟩, i0, hi0, hfan0, hmem, c0, hc0, hfan1⟩ :=
            parentLoop_rects p t _ _ _ _ (show (storeContours t d).found_armor_center_p = false
              from hclear) hdw k hfm'
          rw [hck] at hck'
          cases hck'
          refine ⟨k, i0, ck, c0, rfl, by rw [htop]; exact hi0, hfan0, hmem, hck, hc0, ?_, ?_, ?_⟩
          · show (FindCenterR p m dw).2.armor_encircle_rect_ = _
            rw [harm]; exact harmk
          · show (FindCenterR p m dw).2.fan_encircle_rect_ = _
            rw [hfan]; exact hfan1
          · show (FindCenterR p m dw).2.armor_center_p_ = _
            rw [hP]; exact hPk

/-- An instance of the blend: `frameA` seen by a fresh detector gives
G = 0.25 * (100, 70) + 0.25 * (100, 150) + 0.5 * (100, 100) = (100, 105). -/
theorem FindArmorCenterP_fan_center_witness :
    Sample.afterA.fan_center_g_.x = 1 / 4 * 100 + 1 / 4 * 100 + 1 / 2 * 100 ∧
      Sample.afterA.fan_center_g_.y = 1 / 4 * 70 + 1 / 4 * 150 + 1 / 2 * 100 :=
  (FindArmorCenterP_fan_center Sample.thresholds Sample.upright Sample.frameA Sample.fresh true
    Sample.afterA (by decide!)).2.1 rfl

/-- C13, the code at a failing input. In `frameB` the first matching child is
contour 2, and a fresh detector blends G = (300, 105) from the rectangles chosen
in the call, centers (300, 70) and (300, 100).  The detector left by a
successful `frameA` still has `found_armor_center_p` set: its parent loop stops
after the bare blade (contour 0), center R is found, and G = (100, 105) is
blended from the armor rectangle of the previous frame, center (100, 70), which
is the rectangle of no contour of `frameB` (their centers are listed).  In `frameD` no child passes the
armor tests: a fresh detector fails with G at the origin, and the detector with
the stale flag returns true with G = (100, 125) blended from the rectangle of
the rejected child, center (100, 150). -/
theorem FindArmorCenterP_stale_flag_blends_unchosen_rect :
    Sample.frameB.WellLinked ∧
    Sample.frameB.firstMatch Sample.thresholds = some 2 ∧
    (FindArmorCenterP Sample.thresholds Sample.upright Sample.frameB Sample.fresh).map
      (fun r => (r.1, r.2.found_energy_center_r, r.2.armor_encircle_rect_.center,
        r.2.fan_encircle_rect_.center, r.2.energy_center_r_, r.2.fan_center_g_)) =
      some (true, true, ⟨300, 70⟩, ⟨300, 100⟩, ⟨300, 150⟩, ⟨300, 105⟩) ∧
    (FindArmorCenterP Sample.thresholds Sample.upright Sample.frameB Sample.afterA).map
      (fun r => (r.1, r.2.found_energy_center_r, r.2.armor_encircle_rect_.center,
        r.2.fan_encircle_rect_.center, r.2.energy_center_r_, r.2.fan_center_g_)) =
      some (true, true, ⟨100, 70⟩, ⟨100, 100⟩, ⟨100, 150⟩, ⟨100, 105⟩) ∧
    Sample.frameB.contours.map (fun c => c.minAreaRect.center) =
      [⟨100, 100⟩, ⟨300, 100⟩, ⟨300, 70⟩, ⟨100, 150⟩, ⟨300, 150⟩] ∧
    Sample.frameD.WellLinked ∧
    Sample.frameD.firstMatch Sample.thresholds = none ∧
    (FindArmorCenterP Sample.thresholds Sample.upright Sample.frameD Sample.fresh).map
      (fun r => (r.1, r.2.found_energy_center_r, r.2.fan_center_g_)) =
      some (false, false, ⟨0, 0⟩) ∧
    (FindArmorCenterP Sample.thresholds Sample.upright Sample.frameD Sample.afterA).map
      (fun r => (r.1, r.2.found_energy_center_r, r.2.armor_encircle_rect_.center,
        r.2.fan_encircle_rect_.center, r.2.energy_center_r_, r.2.fan_center_g_)) =
      some (true, true, ⟨100, 150⟩, ⟨100, 100⟩, ⟨100, 150⟩, ⟨100, 125⟩) := by
  refine ⟨by decide!, by decide!, by decide!, by decide!, by decide!, by decide!, by decide!,
    by decide!, by decide!⟩

end RuneDetector

/-! ## Degenerate rectangles -/

namespace RuneDetector

/-- The ratio test on a truncated width and height of which one is zero, with
a non-negative lower limit: after the swap the quotient is 0, or its divisor is
zero, and the test fails. -/
theorem ratioWithin_degenerate (w h : Int) (lo hi : ℚ) (hlo : 0 ≤ lo)
    (hdeg : w = 0 ∨ h = 0) :
    ratioWithin (whRatio (if w > h then (h, w) else (w, h)).1
      (if w > h then (h, w) else (w, h)).2) lo hi = false := by
  by_cases hwh : w > h
  · rw [if_pos hwh]
    dsimp only
    unfold whRatio
    by_cases hw : w = 0
    · rw [if_pos hw]; rfl
    · rw [if_neg hw]
      have hh : h = 0 := by omega
      rw [hh]
      simp [ratioWithin, not_lt.mpr hlo]
  · rw [if_neg hwh]
    dsimp only
    unfold whRatio
    by_cases hh : h = 0
    · rw [if_pos hh]; rfl
    · rw [if_neg hh]
      have hw : w = 0 := by omega
      rw [hw]
      simp [ratioWithin, not_lt.mpr hlo]

theorem fanPasses_degenerate (p : RuneDetectorDebug) (c : Contour)
    (hlo : 0 ≤ p.MinBoundingBoxWHRatio)
    (hdeg : truncInt c.minAreaRect.size.width = 0 ∨ truncInt c.minAreaRect.size.height = 0) :
    fanPasses p c = false := by
  have hr := ratioWithin_degenerate (truncInt c.minAreaRect.size.width)
    (truncInt c.minAreaRect.size.height) p.MinBoundingBoxWHRatio p.MaxBoundingBoxWHRatio hlo hdeg
  unfold fanPasses
  dsimp only
  split
  · rfl
  · by_cases hwh : truncInt c.minAreaRect.size.width > truncInt c.minAreaRect.size.height
    · rw [if_pos hwh] at hr ⊢
      dsimp only at hr ⊢
      rw [hr]
      rfl
    · rw [if_neg hwh] at hr ⊢
      dsimp only at hr ⊢
      rw [hr]
      rfl

theorem armorPasses_degenerate (p : RuneDetectorDebug) (rect : RotatedRect)
    (hlo : 0 ≤ p.MinArmorWHRatio)
    (hdeg : truncInt rect.size.width = 0 ∨ truncInt rect.size.height = 0) :
    armorPasses p rect = false := by
  have hr := ratioWithin_degenerate (truncInt rect.size.width)
    (truncInt rect.size.height) p.MinArmorWHRatio p.MaxArmorWHRatio hlo hdeg
  unfold armorPasses
  dsimp only
  by_cases hwh : truncInt rect.size.width > truncInt rect.size.height
  · rw [if_pos hwh] at hr ⊢
    dsimp only at hr ⊢
    rw [hr]
    simp
  · rw [if_neg hwh] at hr ⊢
    dsimp only at hr ⊢
    rw [hr]
    simp

end RuneDetector

namespace RuneDetector

/-- C19. Degenerate geometry is rejected: with non-negative lower ratio
limits, a contour whose rectangle has a truncated width or height of zero has a
quotient (after the swap) that is 0 or has a zero divisor (`none`, the NaN or
infinity of the division, which is a total function); it fails the fan tests
and the armor tests, the parent loop passes it by without walking its
children, and the child loop passes it by without storing P. -/
theorem degenerate_rect_rejected (p : RuneDetectorDebug) (cs : List Contour)
    (hs : List Vec4i) (fuel : Nat) (i : Int) (d : RuneDetector) (c : Contour) (h : Vec4i)
    (hfan : 0 ≤ p.MinBoundingBoxWHRatio) (harmor : 0 ≤ p.MinArmorWHRatio)
    (hdeg : truncInt c.minAreaRect.size.width = 0 ∨ truncInt c.minAreaRect.size.height = 0)
    (hi : 0 ≤ i) (hc : cs[i.toNat]? = some c) (hh : hs[i.toNat]? = some h) :
    (whRatio
        (if truncInt c.minAreaRect.size.width > truncInt c.minAreaRect.size.height then
          (truncInt c.minAreaRect.size.height, truncInt c.minAreaRect.size.width)
          else (truncInt c.minAreaRect.size.width, truncInt c.minAreaRect.size.height)).1
        (if truncInt c.minAreaRect.size.width > truncInt c.minAreaRect.size.height then
          (truncInt c.minAreaRect.size.height, truncInt c.minAreaRect.size.width)
          else (truncInt c.minAreaRect.size.width, truncInt c.minAreaRect.size.height)).2 = none ∨
      whRatio
        (if truncInt c.minAreaRect.size.width > truncInt c.minAreaRect.size.height then
          (truncInt c.minAreaRect.size.height, truncInt c.minAreaRect.size.width)
          else (truncInt c.minAreaRect.size.width, truncInt c.minAreaRect.size.height)).1
        (if truncInt c.minAreaRect.size.width > truncInt c.minAreaRect.size.height then
          (truncInt c.minAreaRect.size.height, truncInt c.minAreaRect.size.width)
          else (truncInt c.minAreaRect.size.width, truncInt c.minAreaRect.size.height)).2 =
        some 0) ∧
    fanPasses p c = false ∧ armorPasses p c.minAreaRect = false ∧
    parentLoop p cs hs (fuel + 1) i d =
      parentLoop p cs hs fuel h.next { d with fan_encircle_rect_ := c.minAreaRect } ∧
    childLoop p cs hs (fuel + 1) i d =
      childLoop p cs hs fuel h.next { d with armor_encircle_rect_ := c.minAreaRect } := by
  have hf := fanPasses_degenerate p c hfan hdeg
  have ha := armorPasses_degenerate p c.minAreaRect harmor hdeg
  refine ⟨?_, hf, ha, ?_, ?_⟩
  · by_cases hwh : truncInt c.minAreaRect.size.width > truncInt c.minAreaRect.size.height
    · rw [if_pos hwh]
      dsimp only
      unfold whRatio
      by_cases hw : truncInt c.minAreaRect.size.width = 0
      · left; rw [if_pos hw]
      · right
        have hz : truncInt c.minAreaRect.size.height = 0 := by omega
        rw [if_neg hw, hz]
        simp
    · rw [if_neg hwh]
      dsimp only
      unfold whRatio
      by_cases hz : truncInt c.minAreaRect.size.height = 0
      · left; rw [if_pos hz]
      · right
        have hw : truncInt c.minAreaRect.size.width = 0 := by omega
        rw [if_neg hz, hw]
        simp
  · conv_lhs => unfold parentLoop
    rw [if_neg (by omega), hc, hh]
    dsimp only
    rw [if_neg (by simp [hf])]
  · conv_lhs => unfold childLoop
    rw [if_neg (by omega), hc]
    dsimp only
    rw [if_neg (by simp [ha]), hh]

/-- Witness for C19: the sliver has rectangle area and contour area inside the
limits and an armor-sized child, and the walk ends with no armor point. -/
theorem degenerate_rect_rejected_witness :
    fanPasses Sample.thresholds Sample.sliver = false ∧
      (parentLoop Sample.thresholds Sample.frameE.contours Sample.frameE.hierarchy 3 0
        Sample.fresh).map (fun d => d.found_armor_center_p) = some false := by
  have h := degenerate_rect_rejected Sample.thresholds Sample.frameE.contours
    Sample.frameE.hierarchy 2 0 Sample.fresh Sample.sliver ⟨-1, -1, 1, -1⟩ (by decide!)
    (by decide!) (Or.inl (by decide!)) (by decide) (by decide!) (by decide!)
  refine ⟨h.2.1, ?_⟩
  rw [h.2.2.2.1]
  decide!

end RuneDetector

/-! ## Armor model selection -/

namespace Armor

/-- C14. Armor model selection for unambiguous ids: for every set of four image
corners, plate id 0, 1 or 6 selects the big-plate model (±0.115, ±0.029, 0)
and plate id 2 the small-plate model (±0.066, ±0.027, 0). -/
theorem modelPoints_unambiguous (id_ : Nat) (corners_ : Fin 4 → Point2f) :
    (id_ = 0 ∨ id_ = 1 ∨ id_ = 6 → modelPoints id_ corners_ = some
      [⟨-115 / 1000, 29 / 1000, 0⟩, ⟨-115 / 1000, -29 / 1000, 0⟩, ⟨115 / 1000, -29 / 1000, 0⟩,
        ⟨115 / 1000, 29 / 1000, 0⟩]) ∧
    (id_ = 2 → modelPoints id_ corners_ = some
      [⟨-66 / 1000, 27 / 1000, 0⟩, ⟨-66 / 1000, -27 / 1000, 0⟩, ⟨66 / 1000, -27 / 1000, 0⟩,
        ⟨66 / 1000, 27 / 1000, 0⟩]) := by
  refine ⟨?_, ?_⟩
  · rintro (h | h | h) <;> subst h <;> rfl
  · intro h
    subst h
    rfl

/-- Witness for C14: the base (id 6) with a tall narrow quadrilateral, and the
engineer (id 2) with a wide one. -/
theorem modelPoints_unambiguous_witness :
    modelPoints 6 (axisAligned 0 10 0 40) = some big_armor_pc ∧
      modelPoints 2 (axisAligned 0 40 0 10) = some small_armor_pc :=
  ⟨(modelPoints_unambiguous 6 (axisAligned 0 10 0 40)).1 (Or.inr (Or.inr rfl)),
    (modelPoints_unambiguous 2 (axisAligned 0 40 0 10)).2 rfl⟩

/-- For an axis-aligned rectangle given in the order of the model points, the
two pixel extents computed for an ambiguous id are both zero, whatever the
width and the height, and the small-plate model is selected. -/
theorem modelPoints_axisAligned (id_ : Nat) (l w a b : ℚ) (hid : id_ = 3 ∨ id_ = 4 ∨ id_ = 5)
    (hw : 0 < w) :
    max ((axisAligned l w a b 0).y - (axisAligned l w a b 3).y)
        ((axisAligned l w a b 1).y - (axisAligned l w a b 2).y) = 0 ∧
      max ((axisAligned l w a b 0).x - (axisAligned l w a b 1).x)
        ((axisAligned l w a b 1).x - (axisAligned l w a b 2).x) = 0 ∧
      modelPoints id_ (axisAligned l w a b) = some small_armor_pc := by
  have hh : max ((axisAligned l w a b 0).y - (axisAligned l w a b 3).y)
      ((axisAligned l w a b 1).y - (axisAligned l w a b 2).y) = 0 := by
    simp [axisAligned]
  have hwd : max ((axisAligned l w a b 0).x - (axisAligned l w a b 1).x)
      ((axisAligned l w a b 1).x - (axisAligned l w a b 2).x) = 0 := by
    simp [axisAligned]
    linarith
  refine ⟨hh, hwd, ?_⟩
  rcases hid with h | h | h <;> subst h <;>
    · show (if ratioExceeds _ _ (13 / 10) = true then some big_armor_pc
        else some small_armor_pc) = some small_armor_pc
      rw [hh, hwd]
      rfl

/-- C15, the code at a failing input. Plate id 3 with the axis-aligned
rectangle (0,0), (0,10), (14,10), (14,0), of width 14 and height 10 (ratio
1.4): the computed height and width are both 0 and the small-plate model is
selected. -/
theorem modelPoints_ratio_fourteen_tenths :
    (axisAligned 0 14 0 10 = ![⟨0, 0⟩, ⟨0, 10⟩, ⟨14, 10⟩, ⟨14, 0⟩]) ∧
      max ((axisAligned 0 14 0 10 0).y - (axisAligned 0 14 0 10 3).y)
        ((axisAligned 0 14 0 10 1).y - (axisAligned 0 14 0 10 2).y) = 0 ∧
      max ((axisAligned 0 14 0 10 0).x - (axisAligned 0 14 0 10 1).x)
        ((axisAligned 0 14 0 10 1).x - (axisAligned 0 14 0 10 2).x) = 0 ∧
      modelPoints 3 (axisAligned 0 14 0 10) = some small_armor_pc ∧
      modelPoints 3 (axisAligned 0 14 0 10) ≠ some big_armor_pc := by
  decide!

end Armor

/-! ## Camera and world frames -/

namespace coordinate.transform

/-- The round trip through the world frame, given that the composed rotation
times its transpose is the identity. -/
theorem roundTrip_of_mul_transpose {K : Type} [Field K] (tv t : Fin 3 → K)
    (rm_imu rm_cam_to_imu : Matrix (Fin 3) (Fin 3) K)
    (h : (rm_cam_to_imu * rm_imu) * (rm_cam_to_imu * rm_imu).transpose = 1) :
    WorldToCamera (CameraToWorld tv rm_imu t rm_cam_to_imu) rm_imu t rm_cam_to_imu = tv := by
  unfold WorldToCamera CameraToWorld
  rw [Matrix.mulVec_mulVec, h, Matrix.one_mulVec]
  simp

/-- C16. Camera/world round trip: for every translation vector `tv`, every
offset `t` and every pair of orthogonal matrices `R_imu` and `R_c2i`,
`WorldToCamera (CameraToWorld tv R_imu t R_c2i) R_imu t R_c2i = tv`, over any
field of exact numbers. -/
theorem WorldToCamera_CameraToWorld {K : Type} [Field K] (tv t : Fin 3 → K)
    (rm_imu rm_cam_to_imu : Matrix (Fin 3) (Fin 3) K)
    (himu : rm_imu.transpose * rm_imu = 1)
    (hc2i : rm_cam_to_imu.transpose * rm_cam_to_imu = 1) :
    WorldToCamera (CameraToWorld tv rm_imu t rm_cam_to_imu) rm_imu t rm_cam_to_imu = tv := by
  apply roundTrip_of_mul_transpose
  have himu' : rm_imu * rm_imu.transpose = 1 := Matrix.mul_eq_one_comm.mp himu
  have hc2i' : rm_cam_to_imu * rm_cam_to_imu.transpose = 1 := Matrix.mul_eq_one_comm.mp hc2i
  rw [Matrix.transpose_mul, Matrix.mul_assoc, ← Matrix.mul_assoc rm_imu, himu', Matrix.one_mul,
    hc2i']

end coordinate.transform

namespace coordinate.transform

/-- Witness for C16: a quarter turn as orientation, the identity as
camera-to-IMU rotation and the offset (0, -0.026, 0.075). -/
theorem WorldToCamera_CameraToWorld_witness :
    CameraToWorld ![1, 2, 3] Sample.quarterTurn Sample.camOffset 1 =
        ![1974 / 1000, -1, 3075 / 1000] ∧
      WorldToCamera (CameraToWorld ![1, 2, 3] Sample.quarterTurn Sample.camOffset 1)
        Sample.quarterTurn Sample.camOffset 1 = ![1, 2, 3] :=
  ⟨by decide!, WorldToCamera_CameraToWorld ![1, 2, 3] Sample.camOffset Sample.quarterTurn 1
    (by decide!) (by decide!)⟩

end coordinate.transform

/-! ## Quaternion to rotation matrix -/

namespace coordinate.transform

theorem yaw_orthogonal {K : Type} [Field K] (c s : K) (h : s * s + c * c = 1) :
    (!![c, 0, s; 0, 1, 0; -s, 0, c] : Matrix (Fin 3) (Fin 3) K).transpose *
      !![c, 0, s; 0, 1, 0; -s, 0, c] = 1 := by
  ext i j
  rw [Matrix.mul_apply, Fin.sum_univ_three]
  simp only [Matrix.transpose_apply, Matrix.one_apply]
  fin_cases i <;> fin_cases j <;> simp [Matrix.vecHead, Matrix.vecTail] <;>
    first | linear_combination h | ring1

theorem roll_orthogonal {K : Type} [Field K] (c s : K) (h : s * s + c * c = 1) :
    (!![c, -s, 0; s, c, 0; 0, 0, 1] : Matrix (Fin 3) (Fin 3) K).transpose *
      !![c, -s, 0; s, c, 0; 0, 0, 1] = 1 := by
  ext i j
  rw [Matrix.mul_apply, Fin.sum_univ_three]
  simp only [Matrix.transpose_apply, Matrix.one_apply]
  fin_cases i <;> fin_cases j <;> simp [Matrix.vecHead, Matrix.vecTail] <;>
    first | linear_combination h | ring1

theorem pitch_orthogonal {K : Type} [Field K] (c s : K) (h : s * s + c * c = 1) :
    (!![1, 0, 0; 0, c, -s; 0, s, c] : Matrix (Fin 3) (Fin 3) K).transpose *
      !![1, 0, 0; 0, c, -s; 0, s, c] = 1 := by
  ext i j
  rw [Matrix.mul_apply, Fin.sum_univ_three]
  simp only [Matrix.transpose_apply, Matrix.one_apply]
  fin_cases i <;> fin_cases j <;> simp [Matrix.vecHead, Matrix.vecTail] <;>
    first | linear_combination h | ring1

theorem orthogonal_mul {K : Type} [Field K] (A B : Matrix (Fin 3) (Fin 3) K)
    (hA : A.transpose * A = 1) (hB : B.transpose * B = 1) :
    (A * B).transpose * (A * B) = 1 := by
  rw [Matrix.transpose_mul, Matrix.mul_assoc, ← Matrix.mul_assoc A.transpose, hA,
    Matrix.one_mul, hB]

/-- The matrix of `QuaternionToRotationMatrix` is orthogonal for every
quaternion as soon as the sine and cosine in use satisfy
`sin² + cos² = 1`. -/
theorem orthogonal_of_pythagoras {K : Type} [Field K]
    (lib : CMath K) (hpyth : ∀ a, lib.sin a * lib.sin a + lib.cos a * lib.cos a = 1)
    (q : Quaternion K) :
    (QuaternionToRotationMatrix lib q).transpose * QuaternionToRotationMatrix lib q = 1 := by
  unfold QuaternionToRotationMatrix
  dsimp only
  exact orthogonal_mul _ _
    (orthogonal_mul _ _ (yaw_orthogonal _ _ (hpyth _)) (pitch_orthogonal _ _ (hpyth _)))
    (roll_orthogonal _ _ (hpyth _))

/-- C17. For every unit quaternion (w, x, y, z), the matrix
`R_yaw * R_pitch * R_roll` returned by `QuaternionToRotationMatrix`, built with
the real sine and cosine of the derived Euler angles, is orthogonal:
`Rᵀ * R = 1`.  The unit norm is not used: the matrix is orthogonal for every
quaternion. -/
theorem QuaternionToRotationMatrix_orthogonal (lib : CMath ℝ) (hsin : lib.sin = Real.sin)
    (hcos : lib.cos = Real.cos) (q : Quaternion ℝ)
    (_hunit : q.w * q.w + q.x * q.x + q.y * q.y + q.z * q.z = 1) :
    (QuaternionToRotationMatrix lib q).transpose * QuaternionToRotationMatrix lib q = 1 := by
  apply orthogonal_of_pythagoras
  intro a
  rw [hsin, hcos]
  have := Real.sin_sq_add_cos_sq a
  nlinarith [this]

/-- Witness for C17: the identity quaternion, with the real functions. -/
theorem QuaternionToRotationMatrix_orthogonal_witness :
    (QuaternionToRotationMatrix
        ⟨Real.sin, Real.cos, Real.arcsin, Real.arccos, fun y x => Complex.arg ⟨x, y⟩,
          Real.sqrt, Real.pi⟩ ⟨1, 0, 0, 0⟩).transpose *
      QuaternionToRotationMatrix
        ⟨Real.sin, Real.cos, Real.arcsin, Real.arccos, fun y x => Complex.arg ⟨x, y⟩,
          Real.sqrt, Real.pi⟩ ⟨1, 0, 0, 0⟩ = 1 :=
  QuaternionToRotationMatrix_orthogonal _ rfl rfl ⟨1, 0, 0, 0⟩ (by norm_num)

end coordinate.transform

/-! ## Polygon area -/

namespace algorithm

end algorithm

/-! ## Vector angle -/

namespace algorithm

end algorithm

/-! ## The vote buffer and two detector instances -/

namespace TwoDetectors

open RuneDetector

end TwoDetectors

/-! ## Axis convention of the quaternion conversion -/

namespace coordinate.transform

/-- The matrix of `QuaternionToRotationMatrix` in terms of the three Euler
angles. -/
theorem QuaternionToRotationMatrix_eq {K : Type} [Field K] (lib : CMath K)
    (q : Quaternion K) :
    QuaternionToRotationMatrix lib q =
      (!![lib.cos (e_yaw lib q), 0, lib.sin (e_yaw lib q);
          0, 1, 0;
          -lib.sin (e_yaw lib q), 0, lib.cos (e_yaw lib q)] : Matrix (Fin 3) (Fin 3) K) *
        !![1, 0, 0;
           0, lib.cos (e_pitch lib q), -lib.sin (e_pitch lib q);
           0, lib.sin (e_pitch lib q), lib.cos (e_pitch lib q)] *
        !![lib.cos (e_roll lib q), -lib.sin (e_roll lib q), 0;
           lib.sin (e_roll lib q), lib.cos (e_roll lib q), 0;
           0, 0, 1] := rfl

theorem pitch_zero_eq_one :
    (!![1, 0, 0; 0, Real.cos 0, -Real.sin 0; 0, Real.sin 0, Real.cos 0] :
      Matrix (Fin 3) (Fin 3) ℝ) = 1 := by
  ext i j
  fin_cases i <;> fin_cases j <;> simp [Matrix.one_apply, Matrix.vecHead, Matrix.vecTail]

theorem roll_zero_eq_one :
    (!![Real.cos 0, -Real.sin 0, 0; Real.sin 0, Real.cos 0, 0; 0, 0, 1] :
      Matrix (Fin 3) (Fin 3) ℝ) = 1 := by
  ext i j
  fin_cases i <;> fin_cases j <;> simp [Matrix.one_apply, Matrix.vecHead, Matrix.vecTail]

/-- The two-argument arc tangent of the sine and cosine of an angle has the
cosine and sine of that angle. -/
theorem cos_sin_arg (θ : ℝ) :
    Real.cos (Complex.arg ⟨Real.cos θ, Real.sin θ⟩) = Real.cos θ ∧
      Real.sin (Complex.arg ⟨Real.cos θ, Real.sin θ⟩) = Real.sin θ := by
  have habs : Complex.abs ⟨Real.cos θ, Real.sin θ⟩ = 1 := by
    rw [Complex.abs_apply, Complex.normSq_mk]
    have := Real.cos_sq_add_sin_sq θ
    rw [show Real.cos θ * Real.cos θ + Real.sin θ * Real.sin θ = 1 by nlinarith [this]]
    exact Real.sqrt_one
  have hne : (⟨Real.cos θ, Real.sin θ⟩ : ℂ) ≠ 0 := by
    intro h
    rw [h] at habs
    simp at habs
  refine ⟨?_, ?_⟩
  · rw [Complex.cos_arg hne, habs, div_one]
  · rw [Complex.sin_arg, habs, div_one]

end coordinate.transform

namespace coordinate.transform

/-- The Euler angles of the quaternion of a rotation by `θ` about the z axis,
with the real functions. -/
theorem euler_about_z (lib : CMath ℝ) (hasin : lib.asin = Real.arcsin)
    (hatan2 : lib.atan2 = fun y x => Complex.arg ⟨x, y⟩) (θ : ℝ) :
    e_yaw lib ⟨Real.cos (θ / 2), 0, 0, Real.sin (θ / 2)⟩ =
        Complex.arg ⟨Real.cos θ, Real.sin θ⟩ ∧
      e_roll lib ⟨Real.cos (θ / 2), 0, 0, Real.sin (θ / 2)⟩ = 0 ∧
      e_pitch lib ⟨Real.cos (θ / 2), 0, 0, Real.sin (θ / 2)⟩ = 0 := by
  have hs : Real.sin θ = 2 * Real.sin (θ / 2) * Real.cos (θ / 2) := by
    have := Real.sin_two_mul (θ / 2)
    rw [show 2 * (θ / 2) = θ by ring] at this
    exact this
  have hc : Real.cos θ = 2 * Real.cos (θ / 2) ^ 2 - 1 := by
    have := Real.cos_two_mul (θ / 2)
    rw [show 2 * (θ / 2) = θ by ring] at this
    exact this
  have hp := Real.cos_sq_add_sin_sq (θ / 2)
  refine ⟨?_, ?_, ?_⟩
  · unfold e_yaw
    rw [hatan2]
    dsimp only
    congr 1
    rw [hs, hc]
    congr 1 <;> ring
  · unfold e_roll
    rw [hasin]
    dsimp only
    rw [show -2 * (0 * Real.sin (θ / 2) - Real.cos (θ / 2) * 0) = (0 : ℝ) by ring]
    exact Real.arcsin_zero
  · unfold e_pitch
    rw [hatan2]
    dsimp only
    have h1 : 2 * (Real.cos (θ / 2) * Real.cos (θ / 2) +
        Real.sin (θ / 2) * Real.sin (θ / 2)) - 1 = (1 : ℝ) := by nlinarith [hp]
    have h0 : 2 * (Real.cos (θ / 2) * 0 + 0 * Real.sin (θ / 2)) = (0 : ℝ) := by ring
    rw [h1, h0]
    exact Complex.arg_one

/-- C22. Axis convention of `QuaternionToRotationMatrix`, with the real
functions: the quaternion (cos(θ/2), 0, 0, sin(θ/2)) of a rotation by `θ` about
the z axis gives yaw = θ up to a multiple of 2π, roll = 0 and pitch = 0, and
the returned matrix is the yaw matrix
[[cos θ, 0, sin θ], [0, 1, 0], [-sin θ, 0, cos θ]]; the identity quaternion
gives the identity matrix. -/
theorem QuaternionToRotationMatrix_about_z (lib : CMath ℝ) (hsin : lib.sin = Real.sin)
    (hcos : lib.cos = Real.cos) (hasin : lib.asin = Real.arcsin)
    (hatan2 : lib.atan2 = fun y x => Complex.arg ⟨x, y⟩) (θ : ℝ) :
    (∃ k : ℤ, e_yaw lib ⟨Real.cos (θ / 2), 0, 0, Real.sin (θ / 2)⟩ - θ = 2 * Real.pi * k) ∧
    e_roll lib ⟨Real.cos (θ / 2), 0, 0, Real.sin (θ / 2)⟩ = 0 ∧
    e_pitch lib ⟨Real.cos (θ / 2), 0, 0, Real.sin (θ / 2)⟩ = 0 ∧
    QuaternionToRotationMatrix lib ⟨Real.cos (θ / 2), 0, 0, Real.sin (θ / 2)⟩ =
      !![Real.cos θ, 0, Real.sin θ;
         0, 1, 0;
         -Real.sin θ, 0, Real.cos θ] ∧
    QuaternionToRotationMatrix lib ⟨1, 0, 0, 0⟩ = 1 := by
  have hmat : ∀ φ : ℝ,
      QuaternionToRotationMatrix lib ⟨Real.cos (φ / 2), 0, 0, Real.sin (φ / 2)⟩ =
        !![Real.cos φ, 0, Real.sin φ;
           0, 1, 0;
           -Real.sin φ, 0, Real.cos φ] := by
    intro φ
    obtain ⟨hy, hr, hp⟩ := euler_about_z lib hasin hatan2 φ
    obtain ⟨hcy, hsy⟩ := cos_sin_arg φ
    rw [QuaternionToRotationMatrix_eq, hy, hr, hp, hsin, hcos, hcy, hsy, pitch_zero_eq_one,
      roll_zero_eq_one, Matrix.mul_one, Matrix.mul_one]
  obtain ⟨hy, hr, hp⟩ := euler_about_z lib hasin hatan2 θ
  obtain ⟨hcy, hsy⟩ := cos_sin_arg θ
  refine ⟨?_, hr, hp, hmat θ, ?_⟩
  · rw [hy]
    exact Real.Angle.angle_eq_iff_two_pi_dvd_sub.mp (Real.Angle.cos_sin_inj hcy hsy)
  · have h := hmat 0
    rw [show (0 : ℝ) / 2 = 0 by norm_num, Real.cos_zero, Real.sin_zero] at h
    rw [h]
    ext i j
    fin_cases i <;> fin_cases j <;> simp [Matrix.one_apply, Matrix.vecHead, Matrix.vecTail]

/-- Witness for C22: a rotation by π about the z axis gives the matrix
[[-1, 0, 0], [0, 1, 0], [0, 0, -1]]. -/
theorem QuaternionToRotationMatrix_about_z_witness :
    QuaternionToRotationMatrix
        ⟨Real.sin, Real.cos, Real.arcsin, Real.arccos, fun y x => Complex.arg ⟨x, y⟩,
          Real.sqrt, Real.pi⟩ ⟨Real.cos (Real.pi / 2), 0, 0, Real.sin (Real.pi / 2)⟩ =
      !![Real.cos Real.pi, 0, Real.sin Real.pi;
         0, 1, 0;
         -Real.sin Real.pi, 0, Real.cos Real.pi] :=
  (QuaternionToRotationMatrix_about_z _ rfl rfl rfl rfl Real.pi).2.2.2.1

end coordinate.transform

/-! ## Center R as an arithmetic mean -/

namespace RuneDetector

/-- C23. Center R is the plain arithmetic mean of the in-window candidates:
`FindCenterR` returns true exactly when at least one candidate lies inside the
search window, and then, for every prior value of `energy_center_r_`,
`energy_center_r_` is `(1 / k) * Σ (c_j - offset_center_r_)` over the `k`
in-window candidates; replacing the prior value of R by any other point does
not change the result. -/
theorem FindCenterR_arithmetic_mean (p : RuneDetectorDebug) (m : LibM) (d : RuneDetector) :
    ((FindCenterR p m d).1 = true ↔ 1 ≤ (inWindow p m d).length) ∧
    ((FindCenterR p m d).1 = true →
      (FindCenterR p m d).2.energy_center_r_.x =
          1 / ((inWindow p m d).length : ℚ) *
            ((inWindow p m d).map (fun c => c.x - d.offset_center_r_.x)).sum ∧
        (FindCenterR p m d).2.energy_center_r_.y =
          1 / ((inWindow p m d).length : ℚ) *
            ((inWindow p m d).map (fun c => c.y - d.offset_center_r_.y)).sum) ∧
    (∀ r0 : Point2f,
      (FindCenterR p m { d with energy_center_r_ := r0 }).1 = (FindCenterR p m d).1 ∧
        (FindCenterR p m { d with energy_center_r_ := r0 }).2.energy_center_r_ =
          (FindCenterR p m d).2.energy_center_r_) := by
  refine ⟨?_, ?_, ?_⟩
  · rw [FindCenterR_closed]
    by_cases hw : inWindow p m d = []
    · rw [if_pos hw, hw]
      simp
    · rw [if_neg hw]
      have : 0 < (inWindow p m d).length := List.length_pos.mpr hw
      simp only [true_iff]
      omega
  · rw [FindCenterR_closed]
    by_cases hw : inWindow p m d = []
    · rw [if_pos hw]
      intro h
      cases h
    · rw [if_neg hw]
      intro _
      refine ⟨?_, ?_⟩
      · show (meanMinusOffset d.offset_center_r_ (inWindow p m d)).x = _
        unfold meanMinusOffset
        simp only
        ring
      · show (meanMinusOffset d.offset_center_r_ (inWindow p m d)).y = _
        unfold meanMinusOffset
        simp only
        ring
  · intro r0
    have hw : inWindow p m { d with energy_center_r_ := r0 } = inWindow p m d := rfl
    rw [FindCenterR_closed, FindCenterR_closed, hw]
    by_cases h : inWindow p m d = []
    · rw [if_pos h]
      exact ⟨rfl, rfl⟩
    · rw [if_neg h]
      exact ⟨rfl, rfl⟩

/-- Witness for C23: two marks inside the window, at (100, 150) and
(110, 160), give R = (105, 155), also when the prior R is (7, 9). -/
theorem FindCenterR_arithmetic_mean_witness :
    (FindCenterR Sample.thresholds Sample.upright Sample.twoMarks).2.energy_center_r_.x =
        1 / 2 * (100 + (110 + 0)) ∧
      (FindCenterR Sample.thresholds Sample.upright
        { Sample.twoMarks with energy_center_r_ := ⟨7, 9⟩ }).2.energy_center_r_ =
        (FindCenterR Sample.thresholds Sample.upright Sample.twoMarks).2.energy_center_r_ := by
  have h := FindCenterR_arithmetic_mean Sample.thresholds Sample.upright Sample.twoMarks
  refine ⟨?_, (h.2.2 ⟨7, 9⟩).2⟩
  have hx := (h.2.1 (h.1.mpr (by decide!))).1
  rw [hx]
  decide!

end RuneDetector

/-! ## Rectangular and spherical coordinates -/

namespace coordinate.convert

/-- Polar form: the modulus times the cosine and the sine of the two-argument
arc tangent gives back the two arguments, the origin included. -/
theorem polar_form (a b : ℝ) :
    Real.sqrt (a * a + b * b) * Real.cos (Complex.arg ⟨a, b⟩) = a ∧
      Real.sqrt (a * a + b * b) * Real.sin (Complex.arg ⟨a, b⟩) = b := by
  have habs : Complex.abs ⟨a, b⟩ = Real.sqrt (a * a + b * b) := by
    rw [Complex.abs_apply, Complex.normSq_mk]
  by_cases h0 : (⟨a, b⟩ : ℂ) = 0
  · have ha : a = 0 := congrArg Complex.re h0
    have hb : b = 0 := congrArg Complex.im h0
    subst ha
    subst hb
    simp
  · have hpos : 0 < Complex.abs ⟨a, b⟩ := by
      rw [AbsoluteValue.pos_iff]
      exact h0
    rw [Complex.cos_arg h0, Complex.sin_arg, ← habs]
    refine ⟨?_, ?_⟩
    · show Complex.abs ⟨a, b⟩ * (a / Complex.abs ⟨a, b⟩) = a
      field_simp
    · show Complex.abs ⟨a, b⟩ * (b / Complex.abs ⟨a, b⟩) = b
      field_simp

/-- C24. `Rectangular2Spherical`, with the real square root and two-argument
arc tangent (`atan2(0, 0) = 0`), is inverted on all of space by the spherical
formulas: with (yaw, pitch, d) its result at (x, y, z), `d ≥ 0`, pitch lies in
[-π/2, π/2], `x = d cos(pitch) sin(yaw)`, `y = d sin(pitch)` and
`z = d cos(pitch) cos(yaw)`; the array overload computes the same three
values. -/
theorem Rectangular2Spherical_inverse (lib : CMath ℝ) (hsqrt : lib.sqrt = Real.sqrt)
    (hatan2 : lib.atan2 = fun y x => Complex.arg ⟨x, y⟩) (v : Fin 3 → ℝ) :
    0 ≤ Rectangular2Spherical lib v 2 ∧
    -(Real.pi / 2) ≤ Rectangular2Spherical lib v 1 ∧
    Rectangular2Spherical lib v 1 ≤ Real.pi / 2 ∧
    v 0 = Rectangular2Spherical lib v 2 * Real.cos (Rectangular2Spherical lib v 1) *
      Real.sin (Rectangular2Spherical lib v 0) ∧
    v 1 = Rectangular2Spherical lib v 2 * Real.sin (Rectangular2Spherical lib v 1) ∧
    v 2 = Rectangular2Spherical lib v 2 * Real.cos (Rectangular2Spherical lib v 1) *
      Real.cos (Rectangular2Spherical lib v 0) ∧
    Rectangular2SphericalT lib v = Rectangular2Spherical lib v := by
  have h0 : Rectangular2Spherical lib v 0 = Complex.arg ⟨v 2, v 0⟩ := by
    unfold Rectangular2Spherical
    rw [hatan2]
    rfl
  have h1 : Rectangular2Spherical lib v 1 =
      Complex.arg ⟨Real.sqrt (v 0 * v 0 + v 2 * v 2), v 1⟩ := by
    unfold Rectangular2Spherical
    rw [hatan2, hsqrt]
    rfl
  have h2 : Rectangular2Spherical lib v 2 =
      Real.sqrt (v 0 * v 0 + v 1 * v 1 + v 2 * v 2) := by
    unfold Rectangular2Spherical
    rw [hsqrt]
    rfl
  have hρ : 0 ≤ v 0 * v 0 + v 2 * v 2 := by nlinarith [mul_self_nonneg (v 0), mul_self_nonneg (v 2)]
  have hρsq : Real.sqrt (v 0 * v 0 + v 2 * v 2) * Real.sqrt (v 0 * v 0 + v 2 * v 2) =
      v 0 * v 0 + v 2 * v 2 := Real.mul_self_sqrt hρ
  have hd : Real.sqrt (v 0 * v 0 + v 1 * v 1 + v 2 * v 2) =
      Real.sqrt (Real.sqrt (v 0 * v 0 + v 2 * v 2) * Real.sqrt (v 0 * v 0 + v 2 * v 2) +
        v 1 * v 1) := by
    rw [hρsq]
    congr 1
    ring
  obtain ⟨hpc, hps⟩ := polar_form (Real.sqrt (v 0 * v 0 + v 2 * v 2)) (v 1)
  obtain ⟨hyc, hys⟩ := polar_form (v 2) (v 0)
  rw [show v 2 * v 2 + v 0 * v 0 = v 0 * v 0 + v 2 * v 2 by ring] at hyc hys
  have hrange := (Complex.abs_arg_le_pi_div_two_iff
    (z := ⟨Real.sqrt (v 0 * v 0 + v 2 * v 2), v 1⟩)).mpr (Real.sqrt_nonneg _)
  rw [abs_le] at hrange
  refine ⟨?_, ?_, ?_, ?_, ?_, ?_, rfl⟩
  · rw [h2]
    exact Real.sqrt_nonneg _
  · rw [h1]
    exact hrange.1
  · rw [h1]
    exact hrange.2
  · rw [h0, h1, h2, hd, hpc, hys]
  · rw [h1, h2, hd, hps]
  · rw [h0, h1, h2, hd, hpc, hyc]

/-- Witness for C24: the point (0, 0, 0), where both arc tangents are
`atan2(0, 0)`. -/
theorem Rectangular2Spherical_inverse_witness :
    0 ≤ Rectangular2Spherical
        ⟨Real.sin, Real.cos, Real.arcsin, Real.arccos, fun y x => Complex.arg ⟨x, y⟩,
          Real.sqrt, Real.pi⟩ ![0, 0, 0] 2 ∧
      Rectangular2SphericalT
        ⟨Real.sin, Real.cos, Real.arcsin, Real.arccos, fun y x => Complex.arg ⟨x, y⟩,
          Real.sqrt, Real.pi⟩ ![0, 0, 0] =
        Rectangular2Spherical
          ⟨Real.sin, Real.cos, Real.arcsin, Real.arccos, fun y x => Complex.arg ⟨x, y⟩,
            Real.sqrt, Real.pi⟩ ![0, 0, 0] :=
  ⟨(Rectangular2Spherical_inverse _ rfl rfl ![0, 0, 0]).1,
    (Rectangular2Spherical_inverse _ rfl rfl ![0, 0, 0]).2.2.2.2.2.2⟩

end coordinate.convert

/-! ## Plate ids without a model -/

namespace Armor

/-- For an ambiguous id the constructor passes one of the two lists. -/
theorem modelPoints_ids_three_to_five (id_ : Nat) (corners_ : Fin 4 → Point2f)
    (hid : id_ = 3 ∨ id_ = 4 ∨ id_ = 5) :
    modelPoints id_ corners_ = some big_armor_pc ∨
      modelPoints id_ corners_ = some small_armor_pc := by
  rcases hid with h | h | h <;> subst h <;>
    · show (if ratioExceeds _ _ (13 / 10) = true then some big_armor_pc
        else some small_armor_pc) = some big_armor_pc ∨
        (if ratioExceeds _ _ (13 / 10) = true then some big_armor_pc
          else some small_armor_pc) = some small_armor_pc
      split
      · left; rfl
      · right; rfl

/-- C25. Model selection is partial in the plate id: for every set of image
corners, a plate id outside {0, ..., 6} matches no case of the dispatch, so
that neither model is selected and `cv::solvePnP` is not called, and the ids
0, ..., 6 are exactly the ids for which the big-plate or the small-plate model
is selected. -/
theorem modelPoints_selected_iff (id_ : Nat) (corners_ : Fin 4 → Point2f) :
    (6 < id_ → modelPoints id_ corners_ = none) ∧
    (id_ ≤ 6 ↔ (modelPoints id_ corners_ = some big_armor_pc ∨
      modelPoints id_ corners_ = some small_armor_pc)) ∧
    modelPoints 7 corners_ = none := by
  have hnone : 6 < id_ → modelPoints id_ corners_ = none := by
    intro h
    obtain ⟨n, rfl⟩ : ∃ n, id_ = n + 7 := ⟨id_ - 7, by omega⟩
    rfl
  refine ⟨hnone, ?_, rfl⟩
  constructor
  · intro hle
    have hcases : id_ = 0 ∨ id_ = 1 ∨ id_ = 2 ∨ id_ = 3 ∨ id_ = 4 ∨ id_ = 5 ∨ id_ = 6 := by
      omega
    rcases hcases with h | h | h | h | h | h | h
    · subst h; left; rfl
    · subst h; left; rfl
    · subst h; right; rfl
    · exact modelPoints_ids_three_to_five id_ corners_ (Or.inl h)
    · exact modelPoints_ids_three_to_five id_ corners_ (Or.inr (Or.inl h))
    · exact modelPoints_ids_three_to_five id_ corners_ (Or.inr (Or.inr h))
    · subst h; left; rfl
  · intro hsel
    by_contra hgt
    have := hnone (by omega)
    rcases hsel with h | h <;> rw [this] at h <;> cases h

/-- Witness for C25: plate id 9 with a wide quadrilateral. -/
theorem modelPoints_selected_iff_witness :
    modelPoints 9 (axisAligned 0 40 0 10) = none :=
  (modelPoints_selected_iff 9 (axisAligned 0 40 0 10)).1 (by decide)

end Armor

/-! ## Polygon area and winding direction -/

namespace algorithm

end algorithm
